import Mathlib

/-!
Verification of the AR-Shot bubble-shooter core: a shallow embedding of the
simulation/targeting engine in `src/components/GeminiSlingshot.tsx` and of the
AI-advisor client service, together with theorems checking the design
specification against it.

Modelling conventions: JavaScript floating-point numbers are modelled as exact
rationals; string bubble ids are modelled as naturals; `Math.random`-driven
choices are passed in as explicit parameters; worklist loops are given explicit
fuel together with a proof that the chosen fuel always suffices.
-/

inductive BubbleColor
  | red | blue | green | yellow | purple | orange
deriving DecidableEq

inductive PowerUp
  | bomb | rainbow
deriving DecidableEq

structure Bubble where
  id : Nat
  row : Nat
  col : Nat
  x : ℚ
  y : ℚ
  color : BubbleColor
  active : Bool
  powerUp : Option PowerUp := none
deriving DecidableEq

def BUBBLE_RADIUS : ℚ := 22

def GRID_COLS : Nat := 12

def MAX_ROWS_LIMIT : Nat := 11

/-- ROW_HEIGHT = BUBBLE_RADIUS * Math.sqrt(3); the double value of sqrt(3) is
kept as the exact rational it denotes. -/
def ROW_HEIGHT : ℚ := BUBBLE_RADIUS * 1.7320508075688772

/-- The `points` column of COLOR_CONFIG. -/
def basePoints : BubbleColor → Nat
  | .red => 100
  | .blue => 150
  | .green => 200
  | .yellow => 250
  | .purple => 300
  | .orange => 500

def colorStr : BubbleColor → String
  | .red => "red"
  | .blue => "blue"
  | .green => "green"
  | .yellow => "yellow"
  | .purple => "purple"
  | .orange => "orange"

def distSq (x1 y1 x2 y2 : ℚ) : ℚ := (x1 - x2) ^ 2 + (y1 - y2) ^ 2

/-- The helper `isNeighbor` of GeminiSlingshot.tsx: Euclidean distance strictly
below `2.2 * BUBBLE_RADIUS`; the square-root comparison of the source is
translated to the equivalent squared comparison. -/
def isNeighbor (b1 b2 : Bubble) : Bool :=
  decide (distSq b1.x b1.y b2.x b2.y < (BUBBLE_RADIUS * 2.2) ^ 2)

/-- The match criterion of `checkMatches`:
`current.color === targetColor || current.powerUp === 'rainbow'`. -/
def matchCrit (targetColor : BubbleColor) (b : Bubble) : Bool :=
  decide (b.color = targetColor) || decide (b.powerUp = some PowerUp.rainbow)

structure FloodResult where
  found : List Bubble
  visited : List Nat
  done : Bool
deriving DecidableEq

/-- The worklist loop of `checkMatches`.  The JS loop pops from the end of
`toCheck` and pushes the neighbor array there, so the head of our `toCheck`
list is the JS array's end (pushed neighbors are reversed).  `visited` holds
processed ids; `done` records that the worklist was exhausted within the given
fuel (the concrete fuel used by `checkMatches` is proven sufficient below). -/
def floodLoop (bs : List Bubble) (targetColor : BubbleColor) :
    Nat → List Bubble → List Nat → List Bubble → FloodResult
  | 0, toCheck, visited, found => ⟨found, visited, toCheck.isEmpty⟩
  | _ + 1, [], visited, found => ⟨found, visited, true⟩
  | fuel + 1, current :: rest, visited, found =>
    if current.id ∈ visited then
      floodLoop bs targetColor fuel rest visited found
    else
      let visited2 := current.id :: visited
      if matchCrit targetColor current then
        let neighbors := bs.filter fun b =>
          b.active && decide (b.id ∉ visited2) && isNeighbor current b
        floodLoop bs targetColor fuel (neighbors.reverse ++ rest) visited2
          (found ++ [current])
      else
        floodLoop bs targetColor fuel rest visited2 found

/-- Fuel that always suffices for `floodLoop` (proved below). -/
def matchFuel (bs : List Bubble) : Nat := (bs.length + 2) * (bs.length + 2)

/-- The connected set computed by `checkMatches` when a projectile settles. -/
def matchesOf (bs : List Bubble) (startBubble : Bubble) : List Bubble :=
  (floodLoop bs startBubble.color (matchFuel bs) [startBubble] [] []).found

structure MatchOutcome where
  bubbles : List Bubble
  scoreDelta : ℤ
  matched : Bool
deriving DecidableEq

/-- `checkMatches` of GeminiSlingshot.tsx.  The in-place mutation
`b.active = false` on every member of `matches` is modelled as a map over the
bubble list keyed by id; the score update
`Math.floor(points * multiplier)` with `points = matches.length * basePoints`
is kept exactly (particle/audio effects are presentation and dropped). -/
def checkMatches (bs : List Bubble) (startBubble : Bubble) : MatchOutcome :=
  let found := matchesOf bs startBubble
  if 3 ≤ found.length then
    let points : Nat := found.length * basePoints startBubble.color
    let multiplier : ℚ := if 3 < found.length then 1.5 else 1.0
    { bubbles := bs.map fun b =>
        if found.any fun m => decide (m.id = b.id) then
          { b with active := false }
        else b
      scoreDelta := Int.floor ((points : ℚ) * multiplier)
      matched := true }
  else
    { bubbles := bs, scoreDelta := 0, matched := false }

/-- Stable insertion sort modelling `Array.prototype.sort` with a comparator:
`le a b` holds when the comparator places `a` no later than `b`
(comparator value at most 0). -/
def insertBy {α : Type} (le : α → α → Bool) (x : α) : List α → List α
  | [] => [x]
  | y :: ys => if le x y then x :: y :: ys else y :: insertBy le x ys

def sortBy {α : Type} (le : α → α → Bool) : List α → List α
  | [] => []
  | x :: xs => insertBy le x (sortBy le xs)

/-- The comparator `(a, b) => b.y - a.y` of `getAllReachableClusters`:
larger `y` (lower on the board, hence larger row) sorts first. -/
def leYDesc (a b : Bubble) : Bool := decide (b.y ≤ a.y)

/-- Least `n` with `m ≤ n * n`, searched upward; fuel `m` suffices because
`m ≤ m * m` once `1 ≤ m`. -/
def leastSqrtGe (m : Nat) : Nat → Nat → Nat
  | 0, n => n
  | fuel + 1, n => if m ≤ n * n then n else leastSqrtGe m fuel (n + 1)

/-- Least natural `n` with `q ≤ (n : ℚ) ^ 2`; since `n * n` is an integer this
equals the least `n` with `⌈q⌉ ≤ n * n`. -/
def ceilSqrtNat (q : ℚ) : Nat :=
  if q ≤ 0 then 0
  else
    let m := (Int.ceil q).toNat
    leastSqrtGe m m 0

/-- `isPathClear` of GeminiSlingshot.tsx: sample the anchor→target segment at
`steps = Math.ceil(distance / (BUBBLE_RADIUS / 2))` interior points
`i = 1 .. steps - 3` and fail when any sample comes within
`1.8 * BUBBLE_RADIUS` of a non-target active bubble.  The float computation
`Math.ceil(Math.sqrt(d2) / (R / 2))` is translated to the equivalent
integer characterisation `ceilSqrtNat (d2 / (R / 2) ^ 2)`, and the `<`
comparison on distances to the equivalent squared comparison.  The anchor
(always set during play) is an explicit parameter. -/
def isPathClear (bs : List Bubble) (anchor : ℚ × ℚ) (target : Bubble) : Bool :=
  let dx := target.x - anchor.1
  let dy := target.y - anchor.2
  let d2 := dx ^ 2 + dy ^ 2
  let steps := ceilSqrtNat (d2 / (BUBBLE_RADIUS / 2) ^ 2)
  (List.range' 1 (steps - 3)).all fun i =>
    let t : ℚ := (i : ℚ) / (steps : ℚ)
    let cx := anchor.1 + dx * t
    let cy := anchor.2 + dy * t
    bs.all fun b =>
      !b.active || decide (b.id = target.id) ||
        decide ((BUBBLE_RADIUS * 1.8) ^ 2 ≤ distSq cx cy b.x b.y)

structure TargetCandidate where
  id : Nat
  color : String
  size : Nat
  row : Nat
  col : Nat
  pointsPerBubble : Nat
  description : String
  powerUp : Option PowerUp := none
deriving DecidableEq

/-- The candidate pushed for a reachable bomb in `getAllReachableClusters`
(fixed literals from the source: color 'red', size 10, 500 points). -/
def bombCandidate (b : Bubble) : TargetCandidate :=
  { id := b.id, color := "red", size := 10, row := b.row, col := b.col,
    pointsPerBubble := 500, description := "BOMB", powerUp := some PowerUp.bomb }

/-- The Left/Center/Right description of a cluster's hittable member. -/
def descOf (m : Bubble) (width : ℚ) : String :=
  let xPct := m.x / width
  if xPct < 0.33 then "Left" else if 0.66 < xPct then "Right" else "Center"

structure BfsResult where
  members : List Bubble
  visited : List Nat
  hasRainbow : Bool
deriving DecidableEq

/-- Fuel for the cluster BFS of `getAllReachableClusters`; each bubble is
enqueued at most once (it is marked visited when pushed), so the loop runs at
most `activeL.length + 1` iterations and this fuel is generous. -/
def bfsFuel (activeL : List Bubble) : Nat := (activeL.length + 2) * (activeL.length + 2)

/-- The queue-based cluster BFS of `getAllReachableClusters` (shift from the
front, push at the back; neighbors are filtered to unvisited active bubbles of
the seed color or rainbows, and are marked visited as they are pushed). -/
def bfsLoop (activeL : List Bubble) (color : BubbleColor) :
    Nat → List Bubble → List Nat → List Bubble → Bool → BfsResult
  | 0, _, visited, members, hr => ⟨members, visited, hr⟩
  | _ + 1, [], visited, members, hr => ⟨members, visited, hr⟩
  | fuel + 1, curr :: rest, visited, members, hr =>
    let neighbors := activeL.filter fun n =>
      decide (n.id ∉ visited) &&
        (decide (n.color = color) || decide (n.powerUp = some PowerUp.rainbow)) &&
        isNeighbor curr n
    bfsLoop activeL color fuel (rest ++ neighbors)
      (visited ++ neighbors.map Bubble.id) (members ++ [curr])
      (hr || neighbors.any fun n => decide (n.powerUp = some PowerUp.rainbow))

/-- The per-cluster emission step of `getAllReachableClusters`: sort the
members bottom-most first (`(a, b) => b.y - a.y`), take the first member with a
clear path, and emit one candidate for it; emit nothing when no member is
hittable. -/
def clusterCandidate (bs : List Bubble) (anchor : ℚ × ℚ) (width : ℚ)
    (color : BubbleColor) (members : List Bubble) (hasRainbow : Bool) :
    Option TargetCandidate :=
  match (sortBy leYDesc members).find? (fun m => isPathClear bs anchor m) with
  | none => none
  | some m => some
      { id := m.id, color := colorStr color, size := members.length,
        row := m.row, col := m.col, pointsPerBubble := basePoints color,
        description := descOf m width,
        powerUp := if hasRainbow then some PowerUp.rainbow else none }

/-- One color iteration of `getAllReachableClusters`: walk `activeL` with the
per-color `visited` set; reachable bombs (of any color) are emitted directly
and marked visited, unreachable bombs are skipped, and unvisited bubbles of the
current color seed the cluster BFS. -/
def scanBubbles (bs activeL : List Bubble) (anchor : ℚ × ℚ) (width : ℚ)
    (color : BubbleColor) :
    List Bubble → List Nat → List TargetCandidate →
      List TargetCandidate × List Nat
  | [], visited, acc => (acc, visited)
  | b :: rest, visited, acc =>
    if b.powerUp = some PowerUp.bomb ∧ b.id ∉ visited then
      if isPathClear bs anchor b then
        scanBubbles bs activeL anchor width color rest (visited ++ [b.id])
          (acc ++ [bombCandidate b])
      else
        scanBubbles bs activeL anchor width color rest visited acc
    else if b.color ≠ color ∨ b.id ∈ visited then
      scanBubbles bs activeL anchor width color rest visited acc
    else
      let r := bfsLoop activeL color (bfsFuel activeL) [b] (visited ++ [b.id]) [] false
      let acc2 := match clusterCandidate bs anchor width color r.members r.hasRainbow with
        | some c => acc ++ [c]
        | none => acc
      scanBubbles bs activeL anchor width color rest r.visited acc2

/-- `getAllReachableClusters` of GeminiSlingshot.tsx: for each distinct color
of the active bubbles (in first-occurrence order, as a JS `Set`), scan the
active bubbles with a fresh per-color visited set, accumulating candidates
across colors. -/
def getAllReachableClusters (bs : List Bubble) (anchor : ℚ × ℚ) (width : ℚ) :
    List TargetCandidate :=
  let activeL := bs.filter fun b => b.active
  let uniqueColors := (activeL.map fun b => b.color).eraseDups
  uniqueColors.foldl
    (fun acc color => (scanBubbles bs activeL anchor width color activeL [] acc).1) []

structure BombOutcome where
  bubbles : List Bubble
  scoreDelta : Nat
deriving DecidableEq

/-- `triggerBomb` of GeminiSlingshot.tsx: deactivate every active bubble whose
distance from the bomb's center is at most `BUBBLE_RADIUS * 3.5` and award 50
points per destroyed bubble (the square-root comparison is translated to the
equivalent squared comparison; particles and audio are presentation only). -/
def triggerBomb (bs : List Bubble) (bomb : Bubble) : BombOutcome :=
  let hit := fun b : Bubble =>
    b.active && decide (distSq b.x b.y bomb.x bomb.y ≤ (BUBBLE_RADIUS * 3.5) ^ 2)
  { bubbles := bs.map fun b => if hit b then { b with active := false } else b,
    scoreDelta := bs.countP hit * 50 }

structure FlightState where
  bubbles : List Bubble
  score : Nat
  isFlying : Bool
  ballPos : ℚ × ℚ
  ballVel : ℚ × ℚ
deriving DecidableEq

/-- The bomb branch of the in-flight collision loop in `onResults`:
`triggerBomb(b); isFlying = false; ballPos = anchor; ballVel = 0; return;` —
no bubble is placed, no match check runs, and shot bookkeeping is skipped. -/
def handleBombHit (st : FlightState) (anchor : ℚ × ℚ) (bomb : Bubble) :
    FlightState :=
  let out := triggerBomb st.bubbles bomb
  { bubbles := out.bubbles, score := st.score + out.scoreDelta,
    isFlying := false, ballPos := anchor, ballVel := (0, 0) }

/-- `getBubblePos` of GeminiSlingshot.tsx. -/
def getBubblePos (row col : Nat) (width : ℚ) : ℚ × ℚ :=
  let xOffset := (width - (GRID_COLS : ℚ) * (BUBBLE_RADIUS * 2)) / 2 + BUBBLE_RADIUS
  let x := xOffset + (col : ℚ) * (BUBBLE_RADIUS * 2) +
    (if row % 2 ≠ 0 then BUBBLE_RADIUS else 0)
  (x, BUBBLE_RADIUS + (row : ℚ) * ROW_HEIGHT)

def COLOR_KEYS : List BubbleColor :=
  [.red, .blue, .green, .yellow, .purple, .orange]

/-- `createBubble` of GeminiSlingshot.tsx; the `Math.random()` draws for the
power-up roll and the color index, and the generated id string, are explicit
parameters. -/
def createBubble (row col : Nat) (width : ℚ) (id : Nat) (rand : ℚ)
    (colorIdx : Fin 6) : Bubble :=
  let p := getBubblePos row col width
  { id := id, row := row, col := col, x := p.1, y := p.2,
    color := COLOR_KEYS.getD colorIdx.val BubbleColor.red, active := true,
    powerUp := if rand < 0.03 then some PowerUp.bomb
      else if rand < 0.05 then some PowerUp.rainbow else none }

structure CeilingOutcome where
  bubbles : List Bubble
  gameOver : Bool
deriving DecidableEq

/-- `addCeilingRow` of GeminiSlingshot.tsx: every active bubble's row is
incremented (with its pixel position recomputed), `maxRow` tracks the largest
incremented row of an active bubble (starting from 0), a full new row of
`GRID_COLS` bubbles is pushed at row 0, and game over triggers when
`maxRow >= MAX_ROWS_LIMIT`.  The random draws for the new row are explicit
parameters; `updateAvailableColors` and sounds are presentation only. -/
def addCeilingRow (bs : List Bubble) (width : ℚ) (ids : Nat → Nat)
    (rands : Nat → ℚ) (colorIdxs : Nat → Fin 6) : CeilingOutcome :=
  let shifted := bs.map fun b =>
    if b.active then
      let row2 := b.row + 1
      let p := getBubblePos row2 b.col width
      { b with row := row2, x := p.1, y := p.2 }
    else b
  let maxRow := bs.foldl (fun m b => if b.active then max m (b.row + 1) else m) 0
  let newRow := (List.range GRID_COLS).map fun c =>
    createBubble 0 c width (ids c) (rands c) (colorIdxs c)
  { bubbles := shifted ++ newRow, gameOver := decide (MAX_ROWS_LIMIT ≤ maxRow) }

structure StrategicHint where
  message : String
  rationale : Option String := none
  targetRow : Option ℚ := none
  targetCol : Option ℚ := none
  recommendedColor : Option String := none
deriving DecidableEq

/-- The sort comparator of `getBestLocalTarget` in the advisor service:
bombs first, then rainbows, then score (`size * pointsPerBubble`) descending,
then row ascending. -/
def cmpCandidate (a b : TargetCandidate) : ℤ :=
  if a.powerUp = some PowerUp.bomb then -1
  else if b.powerUp = some PowerUp.bomb then 1
  else if a.powerUp = some PowerUp.rainbow then -1
  else if b.powerUp = some PowerUp.rainbow then 1
  else
    let scoreA : ℤ := (a.size : ℤ) * (a.pointsPerBubble : ℤ)
    let scoreB : ℤ := (b.size : ℤ) * (b.pointsPerBubble : ℤ)
    if scoreB ≠ scoreA then scoreB - scoreA else (a.row : ℤ) - (b.row : ℤ)

def leCandidate (a b : TargetCandidate) : Bool := decide (cmpCandidate a b ≤ 0)

/-- The default message of `getBestLocalTarget`. -/
def defensiveMsg : String := "No clear shots—play defensively."

/-- `getBestLocalTarget` of the advisor service: with a non-empty candidate
list, sort by `cmpCandidate` and take the first element; otherwise return the
generic defensive hint carrying the supplied message. -/
def getBestLocalTarget (validTargets : List TargetCandidate) (msg : String) :
    StrategicHint :=
  match sortBy leCandidate validTargets with
  | best :: _ =>
    { message := if best.powerUp = some PowerUp.bomb then "Fallback: TRIGGER BOMB!"
        else "Fallback: Select " ++ best.color.toUpper ++ " at Row " ++ toString best.row,
      rationale := some "Selected based on value and strategic priority.",
      targetRow := some (best.row : ℚ),
      targetCol := some (best.col : ℚ),
      recommendedColor := some best.color }
  | [] => { message := msg, rationale := some "No valid clusters found to target." }

def startsWithL : List Char → List Char → Bool
  | [], _ => true
  | _ :: _, [] => false
  | a :: as, b :: bs => decide (a = b) && startsWithL as bs

def occursIn (pat : List Char) : List Char → Bool
  | [] => startsWithL pat []
  | c :: cs => startsWithL pat (c :: cs) || occursIn pat cs

/-- JS `String.prototype.includes`, used by the error classifier. -/
def strContains (h pat : String) : Bool := occursIn pat.toList h.toList

/-- A transport failure, with the status/message/serialized-error data the
source extracts from the thrown value (`err.status || err.response?.status ||
err.error.code || err.error.status`, `err.message || err.error.message`, and
`JSON.stringify(err)`) already resolved into three fields. -/
structure TransportError where
  status : Option Nat
  msg : String
  errStr : String
deriving DecidableEq

/-- The quota classifier of `getStrategicHint`. -/
def isQuota (e : TransportError) : Bool :=
  decide (e.status = some 429) || strContains e.msg "429" ||
    strContains e.msg "Quota" || strContains e.msg "RESOURCE_EXHAUSTED" ||
    strContains e.errStr "RESOURCE_EXHAUSTED"

/-- The overload classifier of `getStrategicHint`. -/
def isOverloaded (e : TransportError) : Bool :=
  decide (e.status = some 503) || strContains e.msg "503" ||
    strContains e.msg "overloaded" || strContains e.msg "UNAVAILABLE" ||
    strContains e.errStr "UNAVAILABLE"

/-- The result of one `ai.models.generateContent` call, supplied as an oracle:
either the response text or a thrown error. -/
inductive AttemptResult
  | success (text : String)
  | failure (e : TransportError)

inductive TransportOutcome
  | ok (text : String) (attemptsMade : Nat) (delays : List Nat)
  | quotaAbort (e : TransportError) (overloaded : Bool) (attemptsMade : Nat)
      (delays : List Nat)
  | exhausted (e : TransportError) (delays : List Nat)
deriving DecidableEq

/-- The retry loop of `getStrategicHint` (`retries = 3`, `delay = 1000`,
doubling after each non-final failure): success breaks out; a quota/overload
failure aborts immediately; the final failure is rethrown (`exhausted`);
other failures sleep for `delay` (recorded in `delays`) and retry. -/
def transportGo (attempts : Nat → AttemptResult) :
    Nat → Nat → Nat → List Nat → TransportOutcome
  | _, 0, _, delays => .exhausted ⟨none, "", ""⟩ delays
  | i, remaining + 1, delay, delays =>
    match attempts i with
    | .success t => .ok t (i + 1) delays
    | .failure e =>
      if isQuota e || isOverloaded e then
        .quotaAbort e (isOverloaded e) (i + 1) delays
      else if remaining = 0 then .exhausted e delays
      else transportGo attempts (i + 1) remaining (delay * 2) (delays ++ [delay])

def transportLoop (attempts : Nat → AttemptResult) : TransportOutcome :=
  transportGo attempts 0 3 1000 []

/-- A JSON scalar; the structured-response schema of the service only ever
reads scalar fields, so objects/arrays inside fields are not modelled. -/
inductive JVal
  | jnull
  | jbool (b : Bool)
  | jnum (q : ℚ)
  | jstr (s : String)
deriving DecidableEq

/-- The parsed JSON object: the five schema fields, each possibly absent. -/
structure ParsedJson where
  message : Option JVal := none
  rationale : Option JVal := none
  recommendedColor : Option JVal := none
  targetRow : Option JVal := none
  targetCol : Option JVal := none
deriving DecidableEq

/-- JS `Number(string)` restricted to the shapes the advisor emits: the empty
(or all-whitespace) string is 0, integer literals parse, anything else is NaN
(`none`).  Fractional literals are not modelled. -/
def jsStrToNumber (s : String) : Option ℚ :=
  if s.trim = "" then some 0 else (s.trim.toInt?).map fun i => (i : ℚ)

/-- JS `Number(x)` on an optional field; `none` encodes NaN
(`Number(undefined)` is NaN, `Number(null)` is 0). -/
def jsNumber : Option JVal → Option ℚ
  | none => none
  | some JVal.jnull => some 0
  | some (JVal.jbool b) => some (if b then 1 else 0)
  | some (JVal.jnum q) => some q
  | some (JVal.jstr s) => jsStrToNumber s

/-- JS truthiness of an optional field (`undefined`, `null`, `false`, `0`, and
the empty string are falsy). -/
def jsTruthy : Option JVal → Bool
  | none => false
  | some JVal.jnull => false
  | some (JVal.jbool b) => b
  | some (JVal.jnum q) => decide (q ≠ 0)
  | some (JVal.jstr s) => decide (s ≠ "")

def jvalStr : JVal → String
  | JVal.jnull => "null"
  | JVal.jbool b => toString b
  | JVal.jnum q => toString q
  | JVal.jstr s => s

/-- `json.message || "Good shot available!"`. -/
def messageOf (p : ParsedJson) : String :=
  if jsTruthy p.message then
    match p.message with
    | some v => jvalStr v
    | none => "Good shot available!"
  else "Good shot available!"

/-- `rationale: json.rationale` (absent stays absent). -/
def rationaleOf (p : ParsedJson) : Option String := p.rationale.map jvalStr

/-- The advisor call's outcome: the hint handed to the caller plus the
`debug.error` tag (the rest of `DebugInfo` is runtime-only diagnostics). -/
structure AiOutcome where
  hint : StrategicHint
  error : Option String := none
deriving DecidableEq

/-- `${status || 'Error'}` (a 0 status is falsy in JS). -/
def statusLabel (e : TransportError) : String :=
  match e.status with
  | some n => if n = 0 then "Error" else toString n
  | none => "Error"

/-- The response-processing tail of `getStrategicHint` after a successful
transport: `JSON.parse` the text (`response.text || "{}"`), then validate.
A response whose `targetRow`/`targetCol` convert to numbers and whose
`recommendedColor` is truthy is surfaced (with `json.message` defaulted);
a truthy non-string `recommendedColor` makes `.toLowerCase()` throw, which the
surrounding catch turns into the parse-error fallback, exactly as in the
source. -/
def processOk (validTargets : List TargetCandidate)
    (parse : String → Option ParsedJson) (text : String) : AiOutcome :=
  match parse (if text = "" then "\x7b\x7d" else text) with
  | none =>
    { hint := getBestLocalTarget validTargets "AI response parse error",
      error := some "JSON Parse Error" }
  | some p =>
    match jsNumber p.targetRow, jsNumber p.targetCol with
    | some r, some c =>
      if jsTruthy p.recommendedColor then
        match p.recommendedColor with
        | some (JVal.jstr s) =>
          let okHint : StrategicHint :=
            { message := messageOf p, rationale := rationaleOf p,
              targetRow := some r, targetCol := some c,
              recommendedColor := some s.toLower }
          { hint := okHint, error := none }
        | _ =>
          { hint := getBestLocalTarget validTargets "AI response parse error",
            error := some "JSON Parse Error" }
      else
        { hint := getBestLocalTarget validTargets "AI returned invalid coordinates",
          error := some "Invalid Coordinates in JSON" }
    | _, _ =>
      { hint := getBestLocalTarget validTargets "AI returned invalid coordinates",
        error := some "Invalid Coordinates in JSON" }

/-- `getStrategicHint` of the advisor service.  The transport and `JSON.parse`
are oracles; the prompt construction feeds only the model and is dropped. -/
def getStrategicHint (validTargets : List TargetCandidate)
    (attempts : Nat → AttemptResult) (parse : String → Option ParsedJson) :
    AiOutcome :=
  match transportLoop attempts with
  | .quotaAbort e over _ _ =>
    { hint := getBestLocalTarget validTargets
        (if over then "⚠️ Service Busy: Using Local Strategy"
          else "⚠️ Offline Mode: Quota Exceeded"),
      error := some (statusLabel e ++ ": Service Unavailable") }
  | .exhausted e _ =>
    { hint := getBestLocalTarget validTargets "AI Service Unreachable",
      error := some (if e.msg = "" then "Unknown API Error" else e.msg) }
  | .ok text _ _ => processOk validTargets parse text

instance : Inhabited Bubble :=
  ⟨⟨0, 0, 0, 0, 0, BubbleColor.red, false, none⟩⟩

/-! ### Concrete example inputs used by witnesses and counterexamples -/

def mkB (id row col : Nat) (x y : ℚ) (color : BubbleColor) (active : Bool)
    (powerUp : Option PowerUp) : Bubble :=
  ⟨id, row, col, x, y, color, active, powerUp⟩

def ex7st : FlightState :=
  ⟨[mkB 1 0 0 10 0 BubbleColor.blue true none,
    mkB 2 0 1 100 0 BubbleColor.green true none], 7, true, (3, 4), (5, 6)⟩

def ex7bomb : Bubble := mkB 9 0 2 0 0 BubbleColor.red true (some PowerUp.bomb)

def ex8bs : List Bubble :=
  [mkB 1 10 0 0 0 BubbleColor.red true none,
   mkB 2 3 1 44 0 BubbleColor.blue false none]

def quotaErr : TransportError := ⟨some 429, "quota", ""⟩

def ex3attempts : Nat → AttemptResult := fun _ => AttemptResult.failure quotaErr

def ex4parsed : ParsedJson :=
  { message := none, rationale := none,
    recommendedColor := some (JVal.jstr "red"),
    targetRow := some (JVal.jnum 2), targetCol := some (JVal.jnum 3) }

def ex4attempts : Nat → AttemptResult := fun _ => AttemptResult.success "x"

def ex4parse : String → Option ParsedJson := fun _ => some ex4parsed

def ex10parsed : ParsedJson :=
  { message := some (JVal.jstr "go"), rationale := none,
    recommendedColor := some (JVal.jstr "MAGENTA"),
    targetRow := some (JVal.jnum 99), targetCol := some (JVal.jnum (-5)) }

def ex10parse : String → Option ParsedJson := fun _ => some ex10parsed

def ex6bomb : TargetCandidate :=
  ⟨10, "red", 10, 4, 0, 500, "BOMB", some PowerUp.bomb⟩

def ex6targets : List TargetCandidate :=
  [ex6bomb,
   ⟨11, "orange", 2, 2, 1, 500, "Center", none⟩,
   ⟨12, "red", 6, 8, 2, 100, "Left", none⟩]

def ex2m1 : Bubble := mkB 1 2 0 300 80 BubbleColor.red true none

def ex2m2 : Bubble := mkB 2 3 0 0 100 BubbleColor.red true none

def ex2blocker : Bubble := mkB 3 1 0 0 150 BubbleColor.blue true none

def ex2bs : List Bubble := [ex2m1, ex2m2, ex2blocker]

def ex2members : List Bubble := [ex2m1, ex2m2]

def ex2cand : TargetCandidate := ⟨1, "red", 2, 2, 0, 100, "Left", none⟩

def ex1b1 : Bubble := mkB 1 0 0 0 0 BubbleColor.red true none

def ex1b2 : Bubble := mkB 2 0 1 44 0 BubbleColor.red true none

def ex1b3 : Bubble := mkB 3 0 2 88 0 BubbleColor.red true none

def ex1bs : List Bubble := [ex1b1, ex1b2, ex1b3]

def ex9seed : Bubble := mkB 1 0 0 0 0 BubbleColor.red true none

def ex9rainbow : Bubble := mkB 2 0 1 44 0 BubbleColor.blue true (some PowerUp.rainbow)

def ex9bs : List Bubble :=
  [ex9seed, ex9rainbow, mkB 3 0 2 88 0 BubbleColor.red true none]

def ex5bomb : Bubble := mkB 1 0 0 0 0 BubbleColor.red true (some PowerUp.bomb)

def ex5blue : Bubble := mkB 2 0 2 100 0 BubbleColor.blue true none

def ex5bs : List Bubble := [ex5bomb, ex5blue]

/-! ### General helper lemmas -/

theorem forall2_map_self {α β : Type} (R : α → β → Prop) (f : α → β)
    (l : List α) (h : ∀ a ∈ l, R a (f a)) : List.Forall₂ R l (l.map f) := by
  induction l with
  | nil => simp
  | cons a t ih =>
    simp only [List.map_cons, List.forall₂_cons]
    exact ⟨h a (by simp), ih fun x hx => h x (by simp [hx])⟩

theorem getD_range_map {α : Type} [Inhabited α] (f : Nat → α) (n c : Nat)
    (hc : c < n) : ((List.range n).map f).getD c default = f c := by
  rw [List.getD_eq_getElem?_getD]
  simp [List.getElem?_map, List.getElem?_range, hc]

theorem foldl_rowmax_ge (K : Nat) (l : List Bubble) : ∀ m0 : Nat,
    (K ≤ l.foldl (fun m b => if b.active then max m (b.row + 1) else m) m0 ↔
      K ≤ m0 ∨ ∃ b ∈ l, b.active = true ∧ K ≤ b.row + 1) := by
  induction l with
  | nil => simp
  | cons b t ih =>
    intro m0
    simp only [List.foldl_cons]
    by_cases hba : b.active = true
    · rw [if_pos hba, ih, le_max_iff]
      constructor
      · rintro ((h | h) | h)
        · exact Or.inl h
        · exact Or.inr ⟨b, by simp, hba, h⟩
        · obtain ⟨x, hx, hxa, hxk⟩ := h
          exact Or.inr ⟨x, by simp [hx], hxa, hxk⟩
      · rintro (h | h)
        · exact Or.inl (Or.inl h)
        · obtain ⟨x, hx, hxa, hxk⟩ := h
          rcases List.mem_cons.mp hx with rfl | hx
          · exact Or.inl (Or.inr hxk)
          · exact Or.inr ⟨x, hx, hxa, hxk⟩
    · rw [if_neg hba, ih]
      constructor
      · rintro (h | h)
        · exact Or.inl h
        · obtain ⟨x, hx, hxa, hxk⟩ := h
          exact Or.inr ⟨x, by simp [hx], hxa, hxk⟩
      · rintro (h | h)
        · exact Or.inl h
        · obtain ⟨x, hx, hxa, hxk⟩ := h
          rcases List.mem_cons.mp hx with rfl | hx
          · exact absurd hxa hba
          · exact Or.inr ⟨x, hx, hxa, hxk⟩

/-! ### C7: bomb area effect -/

/-- C7: when the flying projectile hits a bomb, every active bubble within
`3.5 * BUBBLE_RADIUS` of the bomb's center (and only those) is deactivated
irrespective of color, the score rises by 50 per destroyed bubble, and the
projectile returns to the anchor with zero velocity without a bubble being
placed. -/
theorem C7_bomb_area_effect (st : FlightState) (anchor : ℚ × ℚ) (bomb : Bubble) :
    (handleBombHit st anchor bomb).isFlying = false ∧
    (handleBombHit st anchor bomb).ballPos = anchor ∧
    (handleBombHit st anchor bomb).ballVel = (0, 0) ∧
    (handleBombHit st anchor bomb).bubbles.length = st.bubbles.length ∧
    (handleBombHit st anchor bomb).score = st.score +
      (st.bubbles.countP fun b => b.active &&
        decide (distSq b.x b.y bomb.x bomb.y ≤ (BUBBLE_RADIUS * 3.5) ^ 2)) * 50 ∧
    List.Forall₂ (fun b b' =>
        (b.active = true ∧ distSq b.x b.y bomb.x bomb.y ≤ (BUBBLE_RADIUS * 3.5) ^ 2 →
          b' = { b with active := false }) ∧
        (¬(b.active = true ∧ distSq b.x b.y bomb.x bomb.y ≤ (BUBBLE_RADIUS * 3.5) ^ 2) →
          b' = b))
      st.bubbles (handleBombHit st anchor bomb).bubbles := by
  refine ⟨rfl, rfl, rfl, by simp [handleBombHit, triggerBomb], rfl, ?_⟩
  show List.Forall₂ _ st.bubbles (st.bubbles.map _)
  apply forall2_map_self
  intro b _
  by_cases hb : b.active = true ∧ distSq b.x b.y bomb.x bomb.y ≤ (BUBBLE_RADIUS * 3.5) ^ 2
  · have hhit : (b.active && decide (distSq b.x b.y bomb.x bomb.y ≤ (BUBBLE_RADIUS * 3.5) ^ 2)) = true := by
      simp [hb.1, hb.2]
    constructor
    · intro _
      simp [hhit]
    · intro hc
      exact absurd hb hc
  · have hhit : (b.active && decide (distSq b.x b.y bomb.x bomb.y ≤ (BUBBLE_RADIUS * 3.5) ^ 2)) = false := by
      rcases not_and_or.mp hb with h | h
      · simp [Bool.not_eq_true] at h
        simp [h]
      · simp [h]
    constructor
    · intro hc
      exact absurd hc hb
    · intro _
      simp [hhit]

/-- Witness for C7 at a concrete state: bubble 1 (distance 10) is destroyed,
bubble 2 (distance 100) survives, score rises by exactly 50, and the
projectile is re-anchored. -/
theorem C7_bomb_area_effect_witness :
    (handleBombHit ex7st (0, 300) ex7bomb).isFlying = false ∧
    (handleBombHit ex7st (0, 300) ex7bomb).ballPos = (0, 300) ∧
    (handleBombHit ex7st (0, 300) ex7bomb).score = 57 := by
  have h := C7_bomb_area_effect ex7st (0, 300) ex7bomb
  refine ⟨h.1, h.2.1, ?_⟩
  rw [h.2.2.2.2.1]
  with_unfolding_all decide

/-! ### C8: ceiling escalation -/

/-- C8: `addCeilingRow` increments every active bubble's row by exactly 1
(leaving inactive bubbles untouched), appends a full new active row of
`GRID_COLS` bubbles at row 0 with one bubble per column, and triggers game
over exactly when some active bubble's incremented row reaches
`MAX_ROWS_LIMIT`. -/
theorem C8_ceiling_escalation (bs : List Bubble) (width : ℚ) (ids : Nat → Nat)
    (rands : Nat → ℚ) (colorIdxs : Nat → Fin 6) :
    ∃ shifted newRow,
      (addCeilingRow bs width ids rands colorIdxs).bubbles = shifted ++ newRow ∧
      List.Forall₂ (fun b b' =>
          (b.active = true → b' =
            { b with
              row := b.row + 1
              x := (getBubblePos (b.row + 1) b.col width).1
              y := (getBubblePos (b.row + 1) b.col width).2 }) ∧
          (b.active = false → b' = b))
        bs shifted ∧
      newRow.length = GRID_COLS ∧
      (∀ c, c < GRID_COLS →
        (newRow.getD c default).row = 0 ∧
        (newRow.getD c default).col = c ∧
        (newRow.getD c default).active = true) ∧
      ((addCeilingRow bs width ids rands colorIdxs).gameOver = true ↔
        ∃ b ∈ bs, b.active = true ∧ MAX_ROWS_LIMIT ≤ b.row + 1) := by
  refine ⟨_, _, rfl, ?_, by simp, ?_, ?_⟩
  · apply forall2_map_self
    intro b _
    constructor
    · intro hb
      simp only [hb, if_true]
    · intro hb
      simp only [hb, Bool.false_eq_true, if_false]
  · intro c hc
    rw [getD_range_map _ _ _ hc]
    exact ⟨rfl, rfl, rfl⟩
  · show decide (MAX_ROWS_LIMIT ≤ bs.foldl _ 0) = true ↔ _
    rw [decide_eq_true_iff, foldl_rowmax_ge]
    simp [MAX_ROWS_LIMIT]

/-- Witness for C8: bubble 1 (active, row 10) moves to row 11 and triggers
game over; the result has the original 2 bubbles plus a new row of 12. -/
theorem C8_ceiling_escalation_witness :
    (addCeilingRow ex8bs 1056 (fun c => 100 + c) (fun _ => 1 / 2) (fun _ => 0)).gameOver = true ∧
    (addCeilingRow ex8bs 1056 (fun c => 100 + c) (fun _ => 1 / 2) (fun _ => 0)).bubbles.length = 14 := by
  obtain ⟨shifted, newRow, heq, hfa, hlen, _, hiff⟩ :=
    C8_ceiling_escalation ex8bs 1056 (fun c => 100 + c) (fun _ => 1 / 2) (fun _ => 0)
  constructor
  · apply hiff.mpr
    refine ⟨mkB 1 10 0 0 0 BubbleColor.red true none, ?_, ?_, ?_⟩
    · with_unfolding_all decide
    · with_unfolding_all decide
    · with_unfolding_all decide
  · rw [heq, List.length_append, ← List.Forall₂.length_eq hfa, hlen]
    with_unfolding_all decide

/-! ### C3: transport retry policy -/

theorem transportGo_success (attempts : Nat → AttemptResult) (i r delay : Nat)
    (delays : List Nat) (t : String) (ht : attempts i = AttemptResult.success t) :
    transportGo attempts i (r + 1) delay delays =
      TransportOutcome.ok t (i + 1) delays := by
  rw [transportGo, ht]

theorem transportGo_quota (attempts : Nat → AttemptResult) (i r delay : Nat)
    (delays : List Nat) (e : TransportError)
    (he : attempts i = AttemptResult.failure e)
    (hq : (isQuota e || isOverloaded e) = true) :
    transportGo attempts i (r + 1) delay delays =
      TransportOutcome.quotaAbort e (isOverloaded e) (i + 1) delays := by
  rw [transportGo, he]
  simp [hq]

theorem transportGo_step (attempts : Nat → AttemptResult) (i r delay : Nat)
    (delays : List Nat) (e : TransportError)
    (he : attempts i = AttemptResult.failure e) (hq : isQuota e = false)
    (ho : isOverloaded e = false) (hr : r ≠ 0) :
    transportGo attempts i (r + 1) delay delays =
      transportGo attempts (i + 1) r (delay * 2) (delays ++ [delay]) := by
  rw [transportGo, he]
  simp [hq, ho, hr]

theorem transportGo_last (attempts : Nat → AttemptResult) (i delay : Nat)
    (delays : List Nat) (e : TransportError)
    (he : attempts i = AttemptResult.failure e) (hq : isQuota e = false)
    (ho : isOverloaded e = false) :
    transportGo attempts i (0 + 1) delay delays =
      TransportOutcome.exhausted e delays := by
  rw [transportGo, he]
  simp [hq, ho]

/-- C3: a quota/overload-classified failure at any attempt aborts the retry
loop at once (so a quota failure on attempt `k` yields exactly `k + 1`
attempts and the quota/overload-tagged local fallback), while non-quota
failures are retried with backoff delays 1000 then 2000 ms, up to 3 total
attempts, after which the rethrown error produces the unreachable-service
fallback. -/
theorem C3_transport_policy (targets : List TargetCandidate)
    (parse : String → Option ParsedJson) (attempts : Nat → AttemptResult) :
    (∀ k, k < 3 →
      (∀ j, j < k → ∃ e, attempts j = AttemptResult.failure e ∧
        isQuota e = false ∧ isOverloaded e = false) →
      ((∀ e, attempts k = AttemptResult.failure e →
        (isQuota e || isOverloaded e) = true →
        transportLoop attempts =
          TransportOutcome.quotaAbort e (isOverloaded e) (k + 1)
            (List.take k [1000, 2000]) ∧
        getStrategicHint targets attempts parse =
          { hint := getBestLocalTarget targets
              (if isOverloaded e then "⚠️ Service Busy: Using Local Strategy"
                else "⚠️ Offline Mode: Quota Exceeded"),
            error := some (statusLabel e ++ ": Service Unavailable") }) ∧
      (∀ t, attempts k = AttemptResult.success t →
        transportLoop attempts =
          TransportOutcome.ok t (k + 1) (List.take k [1000, 2000])))) ∧
    ((∀ j, j < 3 → ∃ e, attempts j = AttemptResult.failure e ∧
        isQuota e = false ∧ isOverloaded e = false) →
      ∃ e, attempts 2 = AttemptResult.failure e ∧
        transportLoop attempts = TransportOutcome.exhausted e [1000, 2000] ∧
        getStrategicHint targets attempts parse =
          { hint := getBestLocalTarget targets "AI Service Unreachable",
            error := some (if e.msg = "" then "Unknown API Error" else e.msg) }) := by
  constructor
  · intro k hk hprev
    constructor
    · intro e he hq
      have hT : transportLoop attempts =
          TransportOutcome.quotaAbort e (isOverloaded e) (k + 1)
            (List.take k [1000, 2000]) := by
        interval_cases k
        · exact transportGo_quota attempts 0 2 1000 [] e he hq
        · obtain ⟨e0, h0, q0, o0⟩ := hprev 0 (by omega)
          exact (transportGo_step attempts 0 2 1000 [] e0 h0 q0 o0 (by omega)).trans
            (transportGo_quota attempts 1 1 2000 [1000] e he hq)
        · obtain ⟨e0, h0, q0, o0⟩ := hprev 0 (by omega)
          obtain ⟨e1, h1, q1, o1⟩ := hprev 1 (by omega)
          exact ((transportGo_step attempts 0 2 1000 [] e0 h0 q0 o0 (by omega)).trans
            (transportGo_step attempts 1 1 2000 [1000] e1 h1 q1 o1 (by omega))).trans
            (transportGo_quota attempts 2 0 4000 [1000, 2000] e he hq)
      refine ⟨hT, ?_⟩
      unfold getStrategicHint
      rw [hT]
    · intro t ht
      interval_cases k
      · exact transportGo_success attempts 0 2 1000 [] t ht
      · obtain ⟨e0, h0, q0, o0⟩ := hprev 0 (by omega)
        exact (transportGo_step attempts 0 2 1000 [] e0 h0 q0 o0 (by omega)).trans
          (transportGo_success attempts 1 1 2000 [1000] t ht)
      · obtain ⟨e0, h0, q0, o0⟩ := hprev 0 (by omega)
        obtain ⟨e1, h1, q1, o1⟩ := hprev 1 (by omega)
        exact ((transportGo_step attempts 0 2 1000 [] e0 h0 q0 o0 (by omega)).trans
          (transportGo_step attempts 1 1 2000 [1000] e1 h1 q1 o1 (by omega))).trans
          (transportGo_success attempts 2 0 4000 [1000, 2000] t ht)
  · intro hall
    obtain ⟨e0, h0, q0, o0⟩ := hall 0 (by omega)
    obtain ⟨e1, h1, q1, o1⟩ := hall 1 (by omega)
    obtain ⟨e2, h2, q2, o2⟩ := hall 2 (by omega)
    have hT : transportLoop attempts = TransportOutcome.exhausted e2 [1000, 2000] :=
      ((transportGo_step attempts 0 2 1000 [] e0 h0 q0 o0 (by omega)).trans
        (transportGo_step attempts 1 1 2000 [1000] e1 h1 q1 o1 (by omega))).trans
        (transportGo_last attempts 2 4000 [1000, 2000] e2 h2 q2 o2)
    refine ⟨e2, h2, hT, ?_⟩
    unfold getStrategicHint
    rw [hT]

set_option maxRecDepth 8000 in
/-- Witness for C3: a 429 failure on the very first attempt produces the
quota-tagged fallback after exactly one attempt, with no backoff sleeps. -/
theorem C3_transport_policy_witness :
    transportLoop ex3attempts = TransportOutcome.quotaAbort quotaErr false 1 [] ∧
    getStrategicHint [] ex3attempts (fun _ => none) =
      { hint :=
          { message := "⚠️ Offline Mode: Quota Exceeded"
            rationale := some "No valid clusters found to target." }
        error := some ("429" ++ ": Service Unavailable") } := by
  obtain ⟨h1, h2⟩ :=
    ((C3_transport_policy [] (fun _ => none) ex3attempts).1 0 (by omega)
      (fun j hj => absurd hj (by omega))).1 quotaErr rfl (by with_unfolding_all decide)
  constructor
  · rw [h1]
    with_unfolding_all rfl
  · rw [h2]
    with_unfolding_all rfl

theorem getStrategicHint_ok (targets : List TargetCandidate)
    (attempts : Nat → AttemptResult) (parse : String → Option ParsedJson)
    (text : String) (n : Nat) (delays : List Nat)
    (hT : transportLoop attempts = TransportOutcome.ok text n delays) :
    getStrategicHint targets attempts parse = processOk targets parse text := by
  unfold getStrategicHint
  rw [hT]

/-! ### C4: response validation -/

/-- Counterexample to C4 as stated: a response with no `message` field at all
(but valid color and coordinates) is surfaced to the player with the default
message, not replaced by the local fallback. -/
theorem C4_missing_message_cex :
    ex4parsed.message = none ∧
    getStrategicHint [] ex4attempts ex4parse =
      { hint :=
          { message := "Good shot available!"
            rationale := none
            targetRow := some 2
            targetCol := some 3
            recommendedColor := some "red" }
        error := none } ∧
    getStrategicHint [] ex4attempts ex4parse ≠
      { hint := getBestLocalTarget [] "AI returned invalid coordinates"
        error := some "Invalid Coordinates in JSON" } := by
  refine ⟨rfl, ?_, ?_⟩
  · with_unfolding_all decide
  · with_unfolding_all decide

/-- C4 as amended: a response is valid when `recommendedColor` is a truthy
field and `targetRow`/`targetCol` convert to numbers — `message` is not
required and is defaulted when missing; parse failures and validation
failures fall back with the explicit reason. -/
theorem C4_amended_validation (targets : List TargetCandidate)
    (attempts : Nat → AttemptResult) (parse : String → Option ParsedJson)
    (text : String) (hs : attempts 0 = AttemptResult.success text) :
    (parse (if text = "" then "\x7b\x7d" else text) = none →
      getStrategicHint targets attempts parse =
        { hint := getBestLocalTarget targets "AI response parse error"
          error := some "JSON Parse Error" }) ∧
    (∀ p, parse (if text = "" then "\x7b\x7d" else text) = some p →
      ((jsNumber p.targetRow = none ∨ jsNumber p.targetCol = none ∨
          jsTruthy p.recommendedColor = false) →
        getStrategicHint targets attempts parse =
          { hint := getBestLocalTarget targets "AI returned invalid coordinates"
            error := some "Invalid Coordinates in JSON" }) ∧
      (∀ r c s, jsNumber p.targetRow = some r → jsNumber p.targetCol = some c →
        p.recommendedColor = some (JVal.jstr s) → s ≠ "" →
        getStrategicHint targets attempts parse =
          { hint :=
              { message := messageOf p
                rationale := rationaleOf p
                targetRow := some r
                targetCol := some c
                recommendedColor := some s.toLower }
            error := none })) := by
  have hT : transportLoop attempts = TransportOutcome.ok text 1 [] :=
    transportGo_success attempts 0 2 1000 [] text hs
  have hok := getStrategicHint_ok targets attempts parse text 1 [] hT
  refine ⟨?_, ?_⟩
  · intro hp
    rw [hok]
    unfold processOk
    simp only [hp]
  · intro p hp
    constructor
    · intro hbad
      rw [hok]
      unfold processOk
      simp only [hp]
      rcases hbad with h | h | h
      · cases hc : jsNumber p.targetCol with
        | none => simp [h, hc]
        | some c => simp [h, hc]
      · cases hr : jsNumber p.targetRow with
        | none => simp [h, hr]
        | some r => simp [h, hr]
      · cases hr : jsNumber p.targetRow with
        | none => simp [hr]
        | some r =>
          cases hc : jsNumber p.targetCol with
          | none => simp [hr, hc]
          | some c => simp [hr, hc, h]
    · intro r c s hr hc hcol hne
      rw [hok]
      unfold processOk
      simp only [hp, hr, hc]
      have htr : jsTruthy (some (JVal.jstr s)) = true := by
        simp [jsTruthy, hne]
      simp [hcol, htr]

/-- Witness for the amended C4: a message-less but otherwise valid response is
surfaced with the defaulted message. -/
theorem C4_amended_validation_witness :
    getStrategicHint [] ex4attempts ex4parse =
      { hint :=
          { message := messageOf ex4parsed
            rationale := rationaleOf ex4parsed
            targetRow := some 2
            targetCol := some 3
            recommendedColor := some ("red".toLower) }
        error := none } := by
  have h := (C4_amended_validation [] ex4attempts ex4parse "x" rfl).2 ex4parsed rfl
  exact h.2 2 3 "red" rfl rfl rfl (by decide)

/-! ### C10: unvalidated pass-through of color and coordinates -/

/-- C10: any success response whose `targetRow`/`targetCol` are numbers and
whose `recommendedColor` is a non-empty string is surfaced with exactly that
color lowercased and exactly those coordinates — for every string `s` and all
rationals `r`, `c`, with no palette or grid-bounds check anywhere. -/
theorem C10_color_coord_passthrough (targets : List TargetCandidate)
    (attempts : Nat → AttemptResult) (parse : String → Option ParsedJson)
    (text : String) (p : ParsedJson) (s : String) (r c : ℚ)
    (hs : attempts 0 = AttemptResult.success text)
    (hp : parse (if text = "" then "\x7b\x7d" else text) = some p)
    (hcol : p.recommendedColor = some (JVal.jstr s)) (hne : s ≠ "")
    (hr : p.targetRow = some (JVal.jnum r)) (hc : p.targetCol = some (JVal.jnum c)) :
    (getStrategicHint targets attempts parse).hint.recommendedColor = some s.toLower ∧
    (getStrategicHint targets attempts parse).hint.targetRow = some r ∧
    (getStrategicHint targets attempts parse).hint.targetCol = some c ∧
    (getStrategicHint targets attempts parse).error = none := by
  have hT : transportLoop attempts = TransportOutcome.ok text 1 [] :=
    transportGo_success attempts 0 2 1000 [] text hs
  have hres : getStrategicHint targets attempts parse =
      { hint :=
          { message := messageOf p
            rationale := rationaleOf p
            targetRow := some r
            targetCol := some c
            recommendedColor := some s.toLower }
        error := none } := by
    rw [getStrategicHint_ok targets attempts parse text 1 [] hT]
    unfold processOk
    simp only [hp, hr, hc, jsNumber]
    have htr : jsTruthy (some (JVal.jstr s)) = true := by
      simp [jsTruthy, hne]
    simp [hcol, htr]
  rw [hres]
  exact ⟨rfl, rfl, rfl, rfl⟩

/-- Witness for C10: the out-of-palette color MAGENTA and the off-board cell
(99, -5) are passed through unchanged (color lowercased). -/
theorem C10_color_coord_passthrough_witness :
    (getStrategicHint [] ex4attempts ex10parse).hint.recommendedColor = some "magenta" ∧
    (getStrategicHint [] ex4attempts ex10parse).hint.targetRow = some 99 ∧
    (getStrategicHint [] ex4attempts ex10parse).hint.targetCol = some (-5) ∧
    (getStrategicHint [] ex4attempts ex10parse).error = none := by
  have h := C10_color_coord_passthrough [] ex4attempts ex10parse "x" ex10parsed
    "MAGENTA" 99 (-5) rfl rfl rfl (by decide) rfl rfl
  refine ⟨?_, h.2.1, h.2.2.1, h.2.2.2⟩
  rw [h.1]
  with_unfolding_all decide

/-! ### C6: local fallback heuristic -/

theorem mem_insertBy {α : Type} (le : α → α → Bool) (x : α) (l : List α)
    (z : α) : z ∈ insertBy le x l ↔ z = x ∨ z ∈ l := by
  induction l with
  | nil => simp [insertBy]
  | cons y ys ih =>
    simp only [insertBy]
    by_cases h : le x y = true
    · simp only [if_pos h, List.mem_cons]
    · simp only [if_neg h, List.mem_cons, ih]
      tauto

theorem mem_sortBy {α : Type} (le : α → α → Bool) (l : List α) (z : α) :
    z ∈ sortBy le l ↔ z ∈ l := by
  induction l with
  | nil => simp [sortBy]
  | cons x xs ih =>
    simp [sortBy, mem_insertBy, ih]

theorem insertBy_pairwise {α : Type} (le : α → α → Bool)
    (htot : ∀ a b, le a b = true ∨ le b a = true)
    (htrans : ∀ a b c, le a b = true → le b c = true → le a c = true)
    (x : α) : ∀ l : List α, l.Pairwise (fun a b => le a b = true) →
      (insertBy le x l).Pairwise (fun a b => le a b = true) := by
  intro l
  induction l with
  | nil =>
    intro _
    simp [insertBy]
  | cons y ys ih =>
    intro hp
    obtain ⟨hy, hys⟩ := List.pairwise_cons.mp hp
    simp only [insertBy]
    by_cases h : le x y = true
    · rw [if_pos h]
      refine List.pairwise_cons.mpr ⟨?_, hp⟩
      intro z hz
      rcases List.mem_cons.mp hz with rfl | hz
      · exact h
      · exact htrans x y z h (hy z hz)
    · rw [if_neg h]
      have hyx : le y x = true := (htot x y).resolve_left h
      refine List.pairwise_cons.mpr ⟨?_, ih hys⟩
      intro z hz
      rcases (mem_insertBy le x ys z).mp hz with rfl | hz
      · exact hyx
      · exact hy z hz

theorem sortBy_pairwise {α : Type} (le : α → α → Bool)
    (htot : ∀ a b, le a b = true ∨ le b a = true)
    (htrans : ∀ a b c, le a b = true → le b c = true → le a c = true)
    (l : List α) : (sortBy le l).Pairwise (fun a b => le a b = true) := by
  induction l with
  | nil => simp [sortBy]
  | cons x xs ih =>
    simpa [sortBy] using insertBy_pairwise le htot htrans x (sortBy le xs) ih

theorem leCandidate_total (a b : TargetCandidate) :
    leCandidate a b = true ∨ leCandidate b a = true := by
  simp only [leCandidate, decide_eq_true_iff, cmpCandidate]
  generalize (a.size : ℤ) * (a.pointsPerBubble : ℤ) = sA
  generalize (b.size : ℤ) * (b.pointsPerBubble : ℤ) = sB
  split_ifs <;> omega

theorem leCandidate_trans (a b c : TargetCandidate) :
    leCandidate a b = true → leCandidate b c = true → leCandidate a c = true := by
  simp only [leCandidate, decide_eq_true_iff, cmpCandidate]
  generalize (a.size : ℤ) * (a.pointsPerBubble : ℤ) = sA
  generalize (b.size : ℤ) * (b.pointsPerBubble : ℤ) = sB
  generalize (c.size : ℤ) * (c.pointsPerBubble : ℤ) = sC
  split_ifs <;> omega

/-- C6: on a non-empty candidate list the local fallback picks the head of the
`cmpCandidate`-sorted list — a bomb whenever one exists, otherwise a rainbow
whenever one exists, otherwise a candidate of maximal `size * pointsPerBubble`
with the lowest row among score ties — and returns a hint with that
candidate's row, column and color; on an empty list it returns the generic
defensive hint with no target and no color. -/
theorem C6_local_fallback (targets : List TargetCandidate) (msg : String) :
    (targets = [] → getBestLocalTarget targets msg =
      { message := msg, rationale := some "No valid clusters found to target." }) ∧
    (targets ≠ [] → ∃ best rest, sortBy leCandidate targets = best :: rest ∧
      best ∈ targets ∧
      getBestLocalTarget targets msg =
        { message := if best.powerUp = some PowerUp.bomb then "Fallback: TRIGGER BOMB!"
            else "Fallback: Select " ++ best.color.toUpper ++ " at Row " ++ toString best.row
          rationale := some "Selected based on value and strategic priority."
          targetRow := some (best.row : ℚ)
          targetCol := some (best.col : ℚ)
          recommendedColor := some best.color } ∧
      ((∃ t ∈ targets, t.powerUp = some PowerUp.bomb) →
        best.powerUp = some PowerUp.bomb) ∧
      ((∀ t ∈ targets, t.powerUp ≠ some PowerUp.bomb) →
        (∃ t ∈ targets, t.powerUp = some PowerUp.rainbow) →
        best.powerUp = some PowerUp.rainbow) ∧
      ((∀ t ∈ targets, t.powerUp = none) →
        (∀ t ∈ targets,
          (t.size : ℤ) * (t.pointsPerBubble : ℤ) ≤ (best.size : ℤ) * (best.pointsPerBubble : ℤ)) ∧
        (∀ t ∈ targets,
          (t.size : ℤ) * (t.pointsPerBubble : ℤ) = (best.size : ℤ) * (best.pointsPerBubble : ℤ) →
          best.row ≤ t.row))) := by
  constructor
  · intro h
    subst h
    rfl
  · intro hne
    cases hsort : sortBy leCandidate targets with
    | nil =>
      exfalso
      obtain ⟨z, hz⟩ := List.exists_mem_of_ne_nil targets hne
      have := (mem_sortBy leCandidate targets z).mpr hz
      rw [hsort] at this
      simp at this
    | cons best rest =>
      have hmem : best ∈ targets :=
        (mem_sortBy leCandidate targets best).mp (by rw [hsort]; exact List.mem_cons_self _ _)
      have hminAll : ∀ z ∈ targets, leCandidate best z = true := by
        intro z hz
        have hzs : z ∈ sortBy leCandidate targets :=
          (mem_sortBy leCandidate targets z).mpr hz
        rw [hsort] at hzs
        rcases List.mem_cons.mp hzs with rfl | hzr
        · rcases leCandidate_total z z with h | h <;> exact h
        · have hpw := sortBy_pairwise leCandidate leCandidate_total leCandidate_trans targets
          rw [hsort] at hpw
          exact (List.pairwise_cons.mp hpw).1 z hzr
      refine ⟨best, rest, rfl, hmem, ?_, ?_, ?_, ?_⟩
      · unfold getBestLocalTarget
        rw [hsort]
      · rintro ⟨t, ht, htb⟩
        have hml := hminAll t ht
        by_contra hbb
        simp [leCandidate, cmpCandidate, hbb, htb] at hml
      · intro hnob hex
        obtain ⟨t, ht, htr⟩ := hex
        have hml := hminAll t ht
        by_contra hbr
        simp [leCandidate, cmpCandidate, hnob best hmem, hnob t ht, htr, hbr] at hml
      · intro hnone
        constructor
        · intro t ht
          have hml := hminAll t ht
          simp only [leCandidate, decide_eq_true_iff, cmpCandidate,
            hnone best hmem, hnone t ht] at hml
          simp only [reduceCtorEq, if_false] at hml
          by_cases hss : (t.size : ℤ) * (t.pointsPerBubble : ℤ) =
            (best.size : ℤ) * (best.pointsPerBubble : ℤ)
          · exact le_of_eq hss
          · rw [if_pos hss] at hml
            linarith
        · intro t ht heq
          have hml := hminAll t ht
          simp only [leCandidate, decide_eq_true_iff, cmpCandidate,
            hnone best hmem, hnone t ht] at hml
          simp only [reduceCtorEq, if_false] at hml
          rw [if_neg (not_not_intro heq)] at hml
          omega

/-- Witness for C6 on the candidate list
`[bomb@row4, orange(size 2, row 2), red(size 6, row 8)]`: the bomb wins
regardless of the others' scores and rows. -/
theorem C6_local_fallback_witness :
    (getBestLocalTarget ex6targets defensiveMsg).message = "Fallback: TRIGGER BOMB!" ∧
    (getBestLocalTarget ex6targets defensiveMsg).targetRow = some 4 ∧
    (getBestLocalTarget ex6targets defensiveMsg).recommendedColor = some "red" := by
  obtain ⟨best, rest, hsort, hmem, heq, hbomb, -, -⟩ :=
    (C6_local_fallback ex6targets defensiveMsg).2 (by decide)
  have hb : best.powerUp = some PowerUp.bomb :=
    hbomb ⟨ex6bomb, by decide, by decide⟩
  have hsort2 : sortBy leCandidate ex6targets =
      ex6bomb :: [⟨11, "orange", 2, 2, 1, 500, "Center", none⟩,
        ⟨12, "red", 6, 8, 2, 100, "Left", none⟩] := by decide
  rw [hsort2] at hsort
  injection hsort with hbest hrest
  subst hbest
  rw [heq]
  refine ⟨by rw [if_pos hb], ?_, ?_⟩
  · with_unfolding_all decide
  · with_unfolding_all decide

/-! ### C2: per-cluster hittable-member selection -/

theorem find?_eq_some_split {α : Type} (p : α → Bool) :
    ∀ (l : List α) (m : α), l.find? p = some m →
      ∃ pre post, l = pre ++ m :: post ∧ ∀ x ∈ pre, p x = false := by
  intro l
  induction l with
  | nil =>
    intro m h
    simp at h
  | cons a t ih =>
    intro m h
    by_cases ha : p a = true
    · rw [List.find?_cons_of_pos _ ha] at h
      obtain rfl : a = m := by injection h
      exact ⟨[], t, rfl, by simp⟩
    · have ha' : p a = false := by
        cases hpa : p a
        · rfl
        · exact absurd hpa ha
      rw [List.find?_cons_of_neg _ ha] at h
      obtain ⟨pre, post, hsplit, hpre⟩ := ih m h
      refine ⟨a :: pre, post, by simp [hsplit], ?_⟩
      intro x hx
      rcases List.mem_cons.mp hx with rfl | hx
      · exact ha'
      · exact hpre x hx

theorem leYDesc_total (a b : Bubble) :
    leYDesc a b = true ∨ leYDesc b a = true := by
  simp only [leYDesc, decide_eq_true_iff]
  exact le_total b.y a.y

theorem leYDesc_trans (a b c : Bubble) :
    leYDesc a b = true → leYDesc b c = true → leYDesc a c = true := by
  simp only [leYDesc, decide_eq_true_iff]
  intro h1 h2
  exact h2.trans h1

/-- C2: the per-cluster emission of the enumerator (`clusterCandidate`, the
exact code run for each BFS cluster in `getAllReachableClusters`) emits no
candidate when no member has a clear path, and otherwise emits the candidate
of a clear-path member all of whose strictly lower (larger-`y`, hence
larger-row) fellow members are blocked — the lowest-first clear member. -/
theorem C2_cluster_candidate_selection (bs : List Bubble) (anchor : ℚ × ℚ)
    (width : ℚ) (color : BubbleColor) (members : List Bubble) (hrb : Bool) :
    ((∀ m ∈ members, isPathClear bs anchor m = false) →
      clusterCandidate bs anchor width color members hrb = none) ∧
    (∀ cand, clusterCandidate bs anchor width color members hrb = some cand →
      ∃ m ∈ members, cand.id = m.id ∧ cand.row = m.row ∧ cand.col = m.col ∧
        isPathClear bs anchor m = true ∧
        cand.size = members.length ∧
        cand.color = colorStr color ∧
        cand.pointsPerBubble = basePoints color ∧
        ∀ m2 ∈ members, m.y < m2.y → isPathClear bs anchor m2 = false) := by
  constructor
  · intro hall
    unfold clusterCandidate
    have hnone : (sortBy leYDesc members).find?
        (fun m => isPathClear bs anchor m) = none := by
      rw [List.find?_eq_none]
      intro x hx
      simp [hall x ((mem_sortBy _ _ _).mp hx)]
    rw [hnone]
  · intro cand hc
    unfold clusterCandidate at hc
    cases hfind : (sortBy leYDesc members).find?
        (fun m => isPathClear bs anchor m) with
    | none =>
      rw [hfind] at hc
      simp at hc
    | some m =>
      rw [hfind] at hc
      have hcand := (Option.some.injEq _ _).mp hc
      have hmem : m ∈ members :=
        (mem_sortBy _ _ _).mp (List.mem_of_find?_eq_some hfind)
      have hclear : isPathClear bs anchor m = true := by
        have := List.find?_some hfind
        simpa using this
      refine ⟨m, hmem, ?_, ?_, ?_, hclear, ?_, ?_, ?_, ?_⟩
      · rw [← hcand]
      · rw [← hcand]
      · rw [← hcand]
      · rw [← hcand]
      · rw [← hcand]
      · rw [← hcand]
      · intro m2 hm2 hy
        obtain ⟨pre, post, hsplit, hpre⟩ := find?_eq_some_split _ _ _ hfind
        have hm2s : m2 ∈ sortBy leYDesc members := (mem_sortBy _ _ _).mpr hm2
        rw [hsplit] at hm2s
        rcases List.mem_append.mp hm2s with hm2pre | hm2rest
        · simpa using hpre m2 hm2pre
        · rcases List.mem_cons.mp hm2rest with rfl | hm2post
          · exact absurd hy (lt_irrefl _)
          · exfalso
            have hpw := sortBy_pairwise leYDesc leYDesc_total leYDesc_trans members
            rw [hsplit] at hpw
            have h2 := (List.pairwise_append.mp hpw).2.1
            have := (List.pairwise_cons.mp h2).1 m2 hm2post
            simp only [leYDesc, decide_eq_true_iff] at this
            exact absurd hy (not_lt.mpr this)

/-- Witness for C2: member 2 (lower, y = 100) is blocked by a bubble on its
line of sight, member 1 (y = 80) is clear, so the emitted candidate is
member 1 and the strictly lower member 2 indeed fails the check. -/
theorem C2_cluster_candidate_selection_witness :
    ∃ m ∈ ex2members, ex2cand.id = m.id ∧ ex2cand.row = m.row ∧
      ex2cand.col = m.col ∧ isPathClear ex2bs (0, 200) m = true ∧
      ex2cand.size = ex2members.length ∧
      ex2cand.color = colorStr BubbleColor.red ∧
      ex2cand.pointsPerBubble = basePoints BubbleColor.red ∧
      ∀ m2 ∈ ex2members, m.y < m2.y → isPathClear ex2bs (0, 200) m2 = false := by
  exact (C2_cluster_candidate_selection ex2bs (0, 200) 1000 BubbleColor.red
    ex2members false).2 ex2cand (by with_unfolding_all decide)

/-! ### C1: match scoring and removal -/

/-- C1: when the flood fill started at a settled bubble finds a connected set
of size at least 3, `checkMatches` reports a match, deactivates exactly the
members of that set (by id), and adds
`floor(size * basePoints(seedColor) * multiplier)` with multiplier 1.5 for
size strictly greater than 3 and 1.0 otherwise; for a set smaller than 3 the
bubbles and score are untouched and no match is reported. -/
theorem C1_match_scoring (bs : List Bubble) (seed : Bubble) :
    (3 ≤ (matchesOf bs seed).length →
      (checkMatches bs seed).matched = true ∧
      (checkMatches bs seed).scoreDelta =
        Int.floor ((((matchesOf bs seed).length : ℚ) * (basePoints seed.color : ℚ)) *
          (if 3 < (matchesOf bs seed).length then 1.5 else 1.0)) ∧
      List.Forall₂ (fun b b' =>
        ((∃ m ∈ matchesOf bs seed, m.id = b.id) → b' = { b with active := false }) ∧
        ((∀ m ∈ matchesOf bs seed, m.id ≠ b.id) → b' = b))
        bs (checkMatches bs seed).bubbles) ∧
    ((matchesOf bs seed).length < 3 →
      (checkMatches bs seed).bubbles = bs ∧
      (checkMatches bs seed).scoreDelta = 0 ∧
      (checkMatches bs seed).matched = false) := by
  constructor
  · intro h3
    have hck : checkMatches bs seed = MatchOutcome.mk
        (bs.map fun b =>
          if (matchesOf bs seed).any fun m => decide (m.id = b.id) then
            { b with active := false }
          else b)
        (Int.floor ((((matchesOf bs seed).length * basePoints seed.color : Nat) : ℚ) *
          (if 3 < (matchesOf bs seed).length then 1.5 else 1.0)))
        true := by
      unfold checkMatches
      rw [if_pos h3]
    refine ⟨by rw [hck], ?_, ?_⟩
    · rw [hck]
      norm_cast
    · rw [hck]
      apply forall2_map_self
      intro b _
      by_cases hex : ∃ m ∈ matchesOf bs seed, m.id = b.id
      · have hany : ((matchesOf bs seed).any fun m => decide (m.id = b.id)) = true := by
          rw [List.any_eq_true]
          obtain ⟨m, hm, hid⟩ := hex
          exact ⟨m, hm, by simp [hid]⟩
        constructor
        · intro _
          simp [hany]
        · intro hall
          obtain ⟨m, hm, hid⟩ := hex
          exact absurd hid (hall m hm)
      · have hany : ((matchesOf bs seed).any fun m => decide (m.id = b.id)) = false := by
          rw [Bool.eq_false_iff]
          intro hc
          rw [List.any_eq_true] at hc
          obtain ⟨m, hm, hid⟩ := hc
          exact hex ⟨m, hm, by simpa using hid⟩
        constructor
        · intro hc
          exact absurd hc hex
        · intro _
          simp [hany]
  · intro hlt
    have hck : checkMatches bs seed = MatchOutcome.mk bs 0 false := by
      unfold checkMatches
      rw [if_neg (by omega)]
    exact ⟨by rw [hck], by rw [hck], by rw [hck]⟩

/-- Witness for C1: three red bubbles in a row; settling the middle one gives
a connected set of exactly 3, score delta `floor(3 * 100 * 1.0) = 300`. -/
theorem C1_match_scoring_witness :
    3 ≤ (matchesOf ex1bs ex1b2).length ∧
    (checkMatches ex1bs ex1b2).matched = true ∧
    (checkMatches ex1bs ex1b2).scoreDelta = 300 := by
  have h3 : 3 ≤ (matchesOf ex1bs ex1b2).length := by with_unfolding_all decide
  have h := (C1_match_scoring ex1bs ex1b2).1 h3
  refine ⟨h3, h.1, ?_⟩
  rw [h.2.1]
  with_unfolding_all decide

/-! ### C9: rainbow inclusion and seed-color scoring -/

theorem countP_succ_le {α : Type} (p q : α → Bool) (L : List α) (a : α)
    (ha : a ∈ L) (hp : p a = true) (hq : q a = false)
    (himp : ∀ x, q x = true → p x = true) :
    L.countP q + 1 ≤ L.countP p := by
  induction L with
  | nil => simp at ha
  | cons b t ih =>
    have hmono : t.countP q ≤ t.countP p :=
      List.countP_mono_left fun x _ hx => himp x hx
    rw [List.countP_cons, List.countP_cons]
    rcases List.mem_cons.mp ha with rfl | hat
    · rw [hp, hq]
      simpa using hmono
    · have hb : (if q b = true then 1 else 0) ≤ (if p b = true then 1 else 0) := by
        by_cases h : q b = true
        · simp [h, himp b h]
        · simp [h]
      have := ih hat
      omega

theorem floodLoop_done (bs : List Bubble) (tc : BubbleColor) :
    ∀ fuel toCheck visited found,
      (∀ b ∈ toCheck, b ∈ bs) →
      (bs.map Bubble.id).countP (fun i => decide (i ∉ visited)) * (bs.length + 1) +
        toCheck.length < fuel →
      (floodLoop bs tc fuel toCheck visited found).done = true := by
  intro fuel
  induction fuel with
  | zero =>
    intro toCheck visited found _ hm
    omega
  | succ fuel ih =>
    intro toCheck visited found htc hm
    cases toCheck with
    | nil => simp [floodLoop]
    | cons current rest =>
      by_cases hv : current.id ∈ visited
      · have hstep : floodLoop bs tc (fuel + 1) (current :: rest) visited found =
            floodLoop bs tc fuel rest visited found := by
          simp only [floodLoop]
          rw [if_pos hv]
        rw [hstep]
        apply ih rest visited found (fun b hb => htc b (by simp [hb]))
        simp only [List.length_cons] at hm
        omega
      · have hcur : current ∈ bs := htc current (by simp)
        have hC : (bs.map Bubble.id).countP
              (fun i => decide (i ∉ current.id :: visited)) + 1 ≤
            (bs.map Bubble.id).countP (fun i => decide (i ∉ visited)) := by
          apply countP_succ_le _ _ _ current.id (List.mem_map_of_mem _ hcur)
          · simpa using hv
          · simp
          · intro x hx
            simp only [decide_eq_true_iff] at hx ⊢
            intro hxm
            exact hx (by simp [hxm])
        have hA : (bs.map Bubble.id).countP
              (fun i => decide (i ∉ current.id :: visited)) * (bs.length + 1) +
              (bs.length + 1) ≤
            (bs.map Bubble.id).countP (fun i => decide (i ∉ visited)) * (bs.length + 1) := by
          calc (bs.map Bubble.id).countP
                (fun i => decide (i ∉ current.id :: visited)) * (bs.length + 1) +
                (bs.length + 1)
              = ((bs.map Bubble.id).countP
                (fun i => decide (i ∉ current.id :: visited)) + 1) * (bs.length + 1) := by ring
            _ ≤ _ := Nat.mul_le_mul_right _ hC
        by_cases hcrit : matchCrit tc current = true
        · have hstep : floodLoop bs tc (fuel + 1) (current :: rest) visited found =
              floodLoop bs tc fuel
                ((bs.filter fun b => b.active &&
                  decide (b.id ∉ current.id :: visited) && isNeighbor current b).reverse ++ rest)
                (current.id :: visited) (found ++ [current]) := by
            simp only [floodLoop]
            rw [if_neg hv, if_pos hcrit]
          rw [hstep]
          apply ih
          · intro b hb
            rcases List.mem_append.mp hb with h | h
            · exact List.mem_of_mem_filter (List.mem_reverse.mp h)
            · exact htc b (by simp [h])
          · have hnb : ((bs.filter fun b => b.active &&
                decide (b.id ∉ current.id :: visited) && isNeighbor current b).reverse ++ rest).length ≤
                bs.length + rest.length := by
              simp only [List.length_append, List.length_reverse]
              have := List.length_filter_le (fun b => b.active &&
                decide (b.id ∉ current.id :: visited) && isNeighbor current b) bs
              omega
            simp only [List.length_cons] at hm
            omega
        · have hcrit' : matchCrit tc current = false := by
            cases h : matchCrit tc current
            · rfl
            · exact absurd h hcrit
          have hstep : floodLoop bs tc (fuel + 1) (current :: rest) visited found =
              floodLoop bs tc fuel rest (current.id :: visited) found := by
            simp only [floodLoop]
            rw [if_neg hv, if_neg (by simp [hcrit'])]
          rw [hstep]
          apply ih rest _ found (fun b hb => htc b (by simp [hb]))
          simp only [List.length_cons] at hm
          omega

theorem floodLoop_final (bs : List Bubble) (tc : BubbleColor)
    (hnd : (bs.map Bubble.id).Nodup) :
    ∀ fuel toCheck visited found,
      (∀ b ∈ toCheck, b ∈ bs) →
      (∀ m ∈ found, ∀ n ∈ bs, n.active = true → isNeighbor m n = true →
        n.id ∈ visited ∨ n ∈ toCheck) →
      (∀ b ∈ bs, b.id ∈ visited → matchCrit tc b = true → b ∈ found) →
      (floodLoop bs tc fuel toCheck visited found).done = true →
      ((∀ m ∈ (floodLoop bs tc fuel toCheck visited found).found, ∀ n ∈ bs,
          n.active = true → isNeighbor m n = true →
          n.id ∈ (floodLoop bs tc fuel toCheck visited found).visited) ∧
        (∀ b ∈ bs, b.id ∈ (floodLoop bs tc fuel toCheck visited found).visited →
          matchCrit tc b = true →
          b ∈ (floodLoop bs tc fuel toCheck visited found).found)) := by
  intro fuel
  induction fuel with
  | zero =>
    intro toCheck visited found htc hJ1 hJ2 hdone
    simp only [floodLoop] at hdone ⊢
    have htc0 : toCheck = [] := by
      cases toCheck with
      | nil => rfl
      | cons a t => simp [List.isEmpty] at hdone
    subst htc0
    refine ⟨?_, hJ2⟩
    intro m hm n hn hna hnb
    rcases hJ1 m hm n hn hna hnb with h | h
    · exact h
    · simp at h
  | succ fuel ih =>
    intro toCheck visited found htc hJ1 hJ2 hdone
    cases toCheck with
    | nil =>
      simp only [floodLoop] at hdone ⊢
      refine ⟨?_, hJ2⟩
      intro m hm n hn hna hnb
      rcases hJ1 m hm n hn hna hnb with h | h
      · exact h
      · simp at h
    | cons current rest =>
      by_cases hv : current.id ∈ visited
      · have hstep : floodLoop bs tc (fuel + 1) (current :: rest) visited found =
            floodLoop bs tc fuel rest visited found := by
          simp only [floodLoop]
          rw [if_pos hv]
        rw [hstep] at hdone ⊢
        apply ih rest visited found (fun b hb => htc b (by simp [hb])) ?_ hJ2 hdone
        intro m hm n hn hna hnb
        rcases hJ1 m hm n hn hna hnb with h | h
        · exact Or.inl h
        · rcases List.mem_cons.mp h with rfl | h
          · exact Or.inl hv
          · exact Or.inr h
      · have hcur : current ∈ bs := htc current (by simp)
        by_cases hcrit : matchCrit tc current = true
        · have hstep : floodLoop bs tc (fuel + 1) (current :: rest) visited found =
              floodLoop bs tc fuel
                ((bs.filter fun b => b.active &&
                  decide (b.id ∉ current.id :: visited) && isNeighbor current b).reverse ++ rest)
                (current.id :: visited) (found ++ [current]) := by
            simp only [floodLoop]
            rw [if_neg hv, if_pos hcrit]
          rw [hstep] at hdone ⊢
          apply ih _ _ _ ?_ ?_ ?_ hdone
          · intro b hb
            rcases List.mem_append.mp hb with h | h
            · exact List.mem_of_mem_filter (List.mem_reverse.mp h)
            · exact htc b (by simp [h])
          · intro m hm n hn hna hnb
            rcases List.mem_append.mp hm with hm | hm
            · rcases hJ1 m hm n hn hna hnb with h | h
              · exact Or.inl (by simp [h])
              · rcases List.mem_cons.mp h with rfl | h
                · exact Or.inl (by simp)
                · exact Or.inr (List.mem_append.mpr (Or.inr h))
            · have hm' : m = current := by simpa using hm
              by_cases hid : n.id ∈ current.id :: visited
              · exact Or.inl hid
              · refine Or.inr (List.mem_append.mpr (Or.inl ?_))
                rw [List.mem_reverse, List.mem_filter]
                refine ⟨hn, ?_⟩
                rw [hm'] at hnb
                simp [hna, hnb, hid]
          · intro b hb hbv hbc
            rcases List.mem_cons.mp hbv with hbi | hbv
            · have hbc' : b = current :=
                List.inj_on_of_nodup_map hnd hb hcur hbi
              subst hbc'
              exact List.mem_append.mpr (Or.inr (by simp))
            · exact List.mem_append.mpr (Or.inl (hJ2 b hb hbv hbc))
        · have hcrit' : matchCrit tc current = false := by
            cases h : matchCrit tc current
            · rfl
            · exact absurd h hcrit
          have hstep : floodLoop bs tc (fuel + 1) (current :: rest) visited found =
              floodLoop bs tc fuel rest (current.id :: visited) found := by
            simp only [floodLoop]
            rw [if_neg hv, if_neg (by simp [hcrit'])]
          rw [hstep] at hdone ⊢
          apply ih rest _ found (fun b hb => htc b (by simp [hb])) ?_ ?_ hdone
          · intro m hm n hn hna hnb
            rcases hJ1 m hm n hn hna hnb with h | h
            · exact Or.inl (by simp [h])
            · rcases List.mem_cons.mp h with rfl | h
              · exact Or.inl (by simp)
              · exact Or.inr h
          · intro b hb hbv hbc
            rcases List.mem_cons.mp hbv with hbi | hbv
            · have hbc2 : b = current :=
                List.inj_on_of_nodup_map hnd hb hcur hbi
              subst hbc2
              exact absurd hbc (by simp [hcrit'])
            · exact hJ2 b hb hbv hbc

theorem matchesOf_closed (bs : List Bubble) (seed : Bubble)
    (hnd : (bs.map Bubble.id).Nodup) (hseed : seed ∈ bs) :
    ∀ m ∈ matchesOf bs seed, ∀ n ∈ bs, n.active = true → isNeighbor m n = true →
      matchCrit seed.color n = true → n ∈ matchesOf bs seed := by
  have hcount : (bs.map Bubble.id).countP (fun i => decide (i ∉ ([] : List Nat))) ≤
      bs.length := by
    calc (bs.map Bubble.id).countP (fun i => decide (i ∉ ([] : List Nat)))
        ≤ (bs.map Bubble.id).length := List.countP_le_length _
      _ = bs.length := by simp
  have hmeasure : (bs.map Bubble.id).countP (fun i => decide (i ∉ ([] : List Nat))) *
      (bs.length + 1) + ([seed] : List Bubble).length < matchFuel bs := by
    unfold matchFuel
    have h2 : (bs.map Bubble.id).countP (fun i => decide (i ∉ ([] : List Nat))) *
        (bs.length + 1) ≤ bs.length * (bs.length + 1) :=
      Nat.mul_le_mul_right _ hcount
    simp only [List.length_singleton]
    nlinarith
  have hsub : ∀ b ∈ ([seed] : List Bubble), b ∈ bs := by
    intro b hb
    rw [List.mem_singleton] at hb
    subst hb
    exact hseed
  have hdone : (floodLoop bs seed.color (matchFuel bs) [seed] [] []).done = true :=
    floodLoop_done bs seed.color (matchFuel bs) [seed] [] [] hsub hmeasure
  have h := floodLoop_final bs seed.color hnd (matchFuel bs) [seed] [] []
    hsub (by simp) (by simp) hdone
  intro m hm n hn hna hnb hnc
  exact h.2 n hn (h.1 m hm n hn hna hnb) hnc

/-- C9: any active rainbow bubble adjacent to a member of the computed match
set is itself in the match set (it contributes to the size and is removed
with the set), while the score delta is computed from
`basePoints seed.color` only — the seed bubble's color is the sole source of
the per-bubble base points, never a rainbow member's own color field. -/
theorem C9_rainbow_wildcard (bs : List Bubble) (seed : Bubble)
    (hnd : (bs.map Bubble.id).Nodup) (hseed : seed ∈ bs) :
    (∀ n ∈ bs, n.active = true → n.powerUp = some PowerUp.rainbow →
      (∃ m ∈ matchesOf bs seed, isNeighbor m n = true) → n ∈ matchesOf bs seed) ∧
    (checkMatches bs seed).scoreDelta =
      (if 3 ≤ (matchesOf bs seed).length then
        Int.floor ((((matchesOf bs seed).length * basePoints seed.color : Nat) : ℚ) *
          (if 3 < (matchesOf bs seed).length then 1.5 else 1.0))
      else 0) := by
  constructor
  · intro n hn hna hnr hex
    obtain ⟨m, hm, hnb⟩ := hex
    exact matchesOf_closed bs seed hnd hseed m hm n hn hna hnb
      (by simp [matchCrit, hnr])
  · by_cases h3 : 3 ≤ (matchesOf bs seed).length
    · rw [if_pos h3]
      unfold checkMatches
      rw [if_pos h3]
    · rw [if_neg h3]
      unfold checkMatches
      rw [if_neg h3]

/-- Witness for C9: a blue rainbow bubble adjacent to the red seed is pulled
into the red match set, and the score is 3 bubbles at the seed's 100 points
(the rainbow's blue 150 never enters). -/
theorem C9_rainbow_wildcard_witness :
    ex9rainbow ∈ matchesOf ex9bs ex9seed ∧
    (checkMatches ex9bs ex9seed).scoreDelta = 300 := by
  have h := C9_rainbow_wildcard ex9bs ex9seed (by with_unfolding_all decide)
    (by with_unfolding_all decide)
  constructor
  · apply h.1 ex9rainbow (by with_unfolding_all decide) (by with_unfolding_all decide)
      (by with_unfolding_all decide)
    exact ⟨ex9seed, by with_unfolding_all decide, by with_unfolding_all decide⟩
  · rw [h.2]
    with_unfolding_all decide

/-! ### C5: bomb enumeration in the target-candidate list -/

theorem clusterCandidate_id (bs : List Bubble) (anchor : ℚ × ℚ) (width : ℚ)
    (color : BubbleColor) (members : List Bubble) (hrb : Bool)
    (c : TargetCandidate) :
    clusterCandidate bs anchor width color members hrb = some c →
    ∃ m ∈ members, c.id = m.id := by
  intro hc
  unfold clusterCandidate at hc
  cases hfind : (sortBy leYDesc members).find? (fun m => isPathClear bs anchor m) with
  | none =>
    rw [hfind] at hc
    simp at hc
  | some m =>
    rw [hfind] at hc
    have := (Option.some.injEq _ _).mp hc
    exact ⟨m, (mem_sortBy _ _ _).mp (List.mem_of_find?_eq_some hfind), by rw [← this]⟩

theorem bfsLoop_visited_mono (activeL : List Bubble) (color : BubbleColor) :
    ∀ fuel queue visited members hr (v : Nat), v ∈ visited →
      v ∈ (bfsLoop activeL color fuel queue visited members hr).visited := by
  intro fuel
  induction fuel with
  | zero =>
    intro queue visited members hr v hv
    simpa [bfsLoop] using hv
  | succ fuel ih =>
    intro queue visited members hr v hv
    cases queue with
    | nil => simpa [bfsLoop] using hv
    | cons curr rest =>
      simp only [bfsLoop]
      apply ih
      simp [hv]

theorem bfsLoop_bomb_free (activeL : List Bubble) (color : BubbleColor)
    (bomb : Bubble)
    (honly : ∀ n ∈ activeL, n.id = bomb.id → n = bomb)
    (hiso : ∀ x ∈ activeL, x.id ≠ bomb.id → isNeighbor x bomb = false) :
    ∀ fuel queue visited members hr,
      (∀ b ∈ queue, b ∈ activeL ∧ b.id ≠ bomb.id) →
      (∀ b ∈ members, b.id ≠ bomb.id) →
      ((bomb.id ∉ visited →
        bomb.id ∉ (bfsLoop activeL color fuel queue visited members hr).visited) ∧
       (∀ b ∈ (bfsLoop activeL color fuel queue visited members hr).members,
        b.id ≠ bomb.id)) := by
  intro fuel
  induction fuel with
  | zero =>
    intro queue visited members hr hq hmem
    exact ⟨fun h => by simpa [bfsLoop] using h, fun b hb => hmem b (by simpa [bfsLoop] using hb)⟩
  | succ fuel ih =>
    intro queue visited members hr hq hmem
    cases queue with
    | nil =>
      exact ⟨fun h => by simpa [bfsLoop] using h,
        fun b hb => hmem b (by simpa [bfsLoop] using hb)⟩
    | cons curr rest =>
      have hcurr := hq curr (by simp)
      have hnb : ∀ n ∈ activeL.filter fun n =>
          decide (n.id ∉ visited) &&
            (decide (n.color = color) || decide (n.powerUp = some PowerUp.rainbow)) &&
            isNeighbor curr n, n.id ≠ bomb.id := by
        intro n hn hid
        have hnact : n ∈ activeL := List.mem_of_mem_filter hn
        have hnbomb : n = bomb := honly n hnact hid
        subst hnbomb
        have hcond := (List.mem_filter.mp hn).2
        simp only [Bool.and_eq_true] at hcond
        rw [hiso curr hcurr.1 hcurr.2] at hcond
        exact absurd hcond.2 (by simp)
      simp only [bfsLoop]
      constructor
      · intro hv
        refine (ih _ _ _ _ ?_ ?_).1 ?_
        · intro b hb
          rcases List.mem_append.mp hb with h | h
          · exact ⟨hq b (by simp [h]) |>.1, hq b (by simp [h]) |>.2⟩
          · exact ⟨List.mem_of_mem_filter h, hnb b h⟩
        · intro b hb
          rcases List.mem_append.mp hb with h | h
          · exact hmem b h
          · have hbc : b = curr := by simpa using h
            rw [hbc]
            exact hcurr.2
        · intro hc
          rcases List.mem_append.mp hc with h | h
          · exact hv h
          · obtain ⟨n, hn, hnid⟩ := List.mem_map.mp h
            exact hnb n hn hnid
      · refine (ih _ _ _ _ ?_ ?_).2
        · intro b hb
          rcases List.mem_append.mp hb with h | h
          · exact ⟨hq b (by simp [h]) |>.1, hq b (by simp [h]) |>.2⟩
          · exact ⟨List.mem_of_mem_filter h, hnb b h⟩
        · intro b hb
          rcases List.mem_append.mp hb with h | h
          · exact hmem b h
          · have hbc : b = curr := by simpa using h
            rw [hbc]
            exact hcurr.2

theorem countP_id_le_one (L : List Bubble) (hnd : (L.map Bubble.id).Nodup)
    (v : Nat) : L.countP (fun b => decide (b.id = v)) ≤ 1 := by
  induction L with
  | nil => simp
  | cons b t ih =>
    rw [List.map_cons, List.nodup_cons] at hnd
    rw [List.countP_cons]
    by_cases h : b.id = v
    · have ht : t.countP (fun x => decide (x.id = v)) = 0 := by
        rw [List.countP_eq_zero]
        intro x hx
        simp only [decide_eq_true_iff]
        intro hxv
        apply hnd.1
        rw [h, ← hxv]
        exact List.mem_map_of_mem _ hx
      simp [h, ht]
    · simp [h, ih hnd.2]

theorem scanBubbles_bomb_count (bs activeL : List Bubble) (anchor : ℚ × ℚ)
    (width : ℚ) (color : BubbleColor) (bomb : Bubble)
    (honly : ∀ n ∈ activeL, n.id = bomb.id → n = bomb)
    (hiso : ∀ x ∈ activeL, x.id ≠ bomb.id → isNeighbor x bomb = false)
    (hpu : bomb.powerUp = some PowerUp.bomb) :
    ∀ (l : List Bubble) (visited : List Nat) (acc : List TargetCandidate),
      (∀ b ∈ l, b ∈ activeL) →
      l.countP (fun b => decide (b.id = bomb.id)) ≤ 1 →
      ((scanBubbles bs activeL anchor width color l visited acc).1.countP
          (fun c => decide (c.id = bomb.id)) =
        acc.countP (fun c => decide (c.id = bomb.id)) +
          (if bomb.id ∉ visited ∧ isPathClear bs anchor bomb = true
            then l.countP (fun b => decide (b.id = bomb.id)) else 0)) ∧
      (∀ c ∈ (scanBubbles bs activeL anchor width color l visited acc).1,
        c.id = bomb.id → c ∈ acc ∨ c = bombCandidate bomb) := by
  intro l
  induction l with
  | nil =>
    intro visited acc hsub hle
    constructor
    · simp [scanBubbles]
    · intro c hc hid
      exact Or.inl (by simpa [scanBubbles] using hc)
  | cons b t ih =>
    intro visited acc hsub hle
    have hsubt : ∀ x ∈ t, x ∈ activeL := fun x hx => hsub x (by simp [hx])
    by_cases hbid : b.id = bomb.id
    · have hbb : b = bomb := honly b (hsub b (by simp)) hbid
      subst hbb
      have hhead : (b :: t).countP (fun x => decide (x.id = b.id)) =
          t.countP (fun x => decide (x.id = b.id)) + 1 := by
        rw [List.countP_cons]
        simp
      have ht0 : t.countP (fun x => decide (x.id = b.id)) = 0 := by omega
      by_cases hv : b.id ∈ visited
      · have hstep : scanBubbles bs activeL anchor width color (b :: t) visited acc =
            scanBubbles bs activeL anchor width color t visited acc := by
          simp only [scanBubbles]
          rw [if_neg (by simp [hv]), if_pos (Or.inr hv)]
        rw [hstep]
        obtain ⟨ihc, ihm⟩ := ih visited acc hsubt (by omega)
        refine ⟨?_, ihm⟩
        rw [ihc]
        have hcond : ¬(b.id ∉ visited ∧ isPathClear bs anchor b = true) :=
          fun hcc => hcc.1 hv
        rw [if_neg hcond, if_neg hcond]
      · by_cases hclear : isPathClear bs anchor b = true
        · have hstep : scanBubbles bs activeL anchor width color (b :: t) visited acc =
              scanBubbles bs activeL anchor width color t (visited ++ [b.id])
                (acc ++ [bombCandidate b]) := by
            simp only [scanBubbles]
            rw [if_pos ⟨hpu, hv⟩, if_pos hclear]
          rw [hstep]
          obtain ⟨ihc, ihm⟩ := ih (visited ++ [b.id]) (acc ++ [bombCandidate b])
            hsubt (by omega)
          constructor
          · rw [ihc]
            have hcond : ¬(b.id ∉ visited ++ [b.id] ∧ isPathClear bs anchor b = true) := by
              simp
            rw [if_neg hcond, if_pos ⟨hv, hclear⟩, List.countP_append, hhead, ht0]
            simp [bombCandidate]
          · intro c hc hid
            rcases ihm c hc hid with hmem | heq
            · rcases List.mem_append.mp hmem with h | h
              · exact Or.inl h
              · exact Or.inr (by simpa using h)
            · exact Or.inr heq
        · have hclear' : isPathClear bs anchor b = false := by
            cases h : isPathClear bs anchor b
            · rfl
            · exact absurd h hclear
          have hstep : scanBubbles bs activeL anchor width color (b :: t) visited acc =
              scanBubbles bs activeL anchor width color t visited acc := by
            simp only [scanBubbles]
            rw [if_pos ⟨hpu, hv⟩, if_neg (by simp [hclear'])]
          rw [hstep]
          obtain ⟨ihc, ihm⟩ := ih visited acc hsubt (by omega)
          refine ⟨?_, ihm⟩
          rw [ihc]
          have hcond : ¬(b.id ∉ visited ∧ isPathClear bs anchor b = true) := by
            simp [hclear']
          rw [if_neg hcond, if_neg hcond]
    · have hcnt : (b :: t).countP (fun x => decide (x.id = bomb.id)) =
          t.countP (fun x => decide (x.id = bomb.id)) := by
        rw [List.countP_cons]
        simp [hbid]
      have hvid : ∀ (V : List Nat), bomb.id ∉ V ++ [b.id] ↔ bomb.id ∉ V := by
        intro V
        simp only [List.mem_append, List.mem_singleton]
        constructor
        · intro h hc
          exact h (Or.inl hc)
        · intro h hc
          rcases hc with hc | hc
          · exact h hc
          · exact hbid (hc.symm)
      by_cases hb1 : b.powerUp = some PowerUp.bomb ∧ b.id ∉ visited
      · by_cases hclear : isPathClear bs anchor b = true
        · have hstep : scanBubbles bs activeL anchor width color (b :: t) visited acc =
              scanBubbles bs activeL anchor width color t (visited ++ [b.id])
                (acc ++ [bombCandidate b]) := by
            simp only [scanBubbles]
            rw [if_pos hb1, if_pos hclear]
          rw [hstep]
          obtain ⟨ihc, ihm⟩ := ih (visited ++ [b.id]) (acc ++ [bombCandidate b])
            hsubt (by omega)
          constructor
          · rw [ihc, List.countP_append, hcnt]
            have hacc0 : ([bombCandidate b] : List TargetCandidate).countP
                (fun c => decide (c.id = bomb.id)) = 0 := by
              simp [bombCandidate, hbid]
            rw [hacc0]
            by_cases hc2 : bomb.id ∉ visited ∧ isPathClear bs anchor bomb = true
            · rw [if_pos ⟨(hvid visited).mpr hc2.1, hc2.2⟩, if_pos hc2]
              omega
            · rw [if_neg (fun hcc => hc2 ⟨(hvid visited).mp hcc.1, hcc.2⟩), if_neg hc2]
          · intro c hc hid
            rcases ihm c hc hid with hmem | heq
            · rcases List.mem_append.mp hmem with h | h
              · exact Or.inl h
              · have : c = bombCandidate b := by simpa using h
                rw [this] at hid
                exact absurd hid hbid
            · exact Or.inr heq
        · have hclear' : isPathClear bs anchor b = false := by
            cases h : isPathClear bs anchor b
            · rfl
            · exact absurd h hclear
          have hstep : scanBubbles bs activeL anchor width color (b :: t) visited acc =
              scanBubbles bs activeL anchor width color t visited acc := by
            simp only [scanBubbles]
            rw [if_pos hb1, if_neg (by simp [hclear'])]
          rw [hstep]
          obtain ⟨ihc, ihm⟩ := ih visited acc hsubt (by omega)
          refine ⟨?_, ihm⟩
          rw [ihc, hcnt]
      · by_cases hb2 : b.color ≠ color ∨ b.id ∈ visited
        · have hstep : scanBubbles bs activeL anchor width color (b :: t) visited acc =
              scanBubbles bs activeL anchor width color t visited acc := by
            simp only [scanBubbles]
            rw [if_neg hb1, if_pos hb2]
          rw [hstep]
          obtain ⟨ihc, ihm⟩ := ih visited acc hsubt (by omega)
          refine ⟨?_, ihm⟩
          rw [ihc, hcnt]
        · have hbact : b ∈ activeL := hsub b (by simp)
          have hfree := bfsLoop_bomb_free activeL color bomb honly hiso
            (bfsFuel activeL) [b] (visited ++ [b.id]) [] false
            (by
              intro x hx
              have hxb : x = b := by simpa using hx
              rw [hxb]
              exact ⟨hbact, hbid⟩)
            (by simp)
          have hvtrans : ∀ W : List TargetCandidate,
              (bomb.id ∉ (bfsLoop activeL color (bfsFuel activeL) [b]
                (visited ++ [b.id]) [] false).visited ∧
                isPathClear bs anchor bomb = true) ↔
              (bomb.id ∉ visited ∧ isPathClear bs anchor bomb = true) := by
            intro W
            constructor
            · intro hcc
              refine ⟨?_, hcc.2⟩
              intro hvv
              exact hcc.1 (bfsLoop_visited_mono activeL color (bfsFuel activeL) [b]
                (visited ++ [b.id]) [] false bomb.id (by simp [hvv]))
            · intro hcc
              exact ⟨hfree.1 ((hvid visited).mpr hcc.1), hcc.2⟩
          cases hcc : clusterCandidate bs anchor width color
              (bfsLoop activeL color (bfsFuel activeL) [b] (visited ++ [b.id]) [] false).members
              (bfsLoop activeL color (bfsFuel activeL) [b] (visited ++ [b.id]) [] false).hasRainbow with
          | none =>
            have hstep : scanBubbles bs activeL anchor width color (b :: t) visited acc =
                scanBubbles bs activeL anchor width color t
                  (bfsLoop activeL color (bfsFuel activeL) [b] (visited ++ [b.id]) [] false).visited
                  acc := by
              simp only [scanBubbles]
              rw [if_neg hb1, if_neg hb2, hcc]
            rw [hstep]
            obtain ⟨ihc, ihm⟩ := ih _ acc hsubt (by omega)
            constructor
            · rw [ihc, hcnt]
              by_cases hc2 : bomb.id ∉ visited ∧ isPathClear bs anchor bomb = true
              · rw [if_pos ((hvtrans []).mpr hc2), if_pos hc2]
              · rw [if_neg (fun hx => hc2 ((hvtrans []).mp hx)), if_neg hc2]
            · intro c hc hid
              exact ihm c hc hid
          | some c0 =>
            have hc0id : c0.id ≠ bomb.id := by
              obtain ⟨m, hm, hcid0⟩ := clusterCandidate_id _ _ _ _ _ _ _ hcc
              rw [hcid0]
              exact hfree.2 m hm
            have hstep : scanBubbles bs activeL anchor width color (b :: t) visited acc =
                scanBubbles bs activeL anchor width color t
                  (bfsLoop activeL color (bfsFuel activeL) [b] (visited ++ [b.id]) [] false).visited
                  (acc ++ [c0]) := by
              simp only [scanBubbles]
              rw [if_neg hb1, if_neg hb2, hcc]
            rw [hstep]
            obtain ⟨ihc, ihm⟩ := ih _ (acc ++ [c0]) hsubt (by omega)
            constructor
            · rw [ihc, hcnt, List.countP_append]
              have h0 : ([c0] : List TargetCandidate).countP
                  (fun c => decide (c.id = bomb.id)) = 0 := by
                simp [hc0id]
              rw [h0]
              by_cases hc2 : bomb.id ∉ visited ∧ isPathClear bs anchor bomb = true
              · rw [if_pos ((hvtrans []).mpr hc2), if_pos hc2]
                omega
              · rw [if_neg (fun hx => hc2 ((hvtrans []).mp hx)), if_neg hc2]
            · intro c hc hid
              rcases ihm c hc hid with hmem | heq
              · rcases List.mem_append.mp hmem with h | h
                · exact Or.inl h
                · have hcc0 : c = c0 := by simpa using h
                  rw [hcc0] at hid
                  exact absurd hid hc0id
              · exact Or.inr heq

theorem foldColors_bomb_count (bs activeL : List Bubble) (anchor : ℚ × ℚ)
    (width : ℚ) (bomb : Bubble)
    (honly : ∀ n ∈ activeL, n.id = bomb.id → n = bomb)
    (hiso : ∀ x ∈ activeL, x.id ≠ bomb.id → isNeighbor x bomb = false)
    (hpu : bomb.powerUp = some PowerUp.bomb)
    (hone : activeL.countP (fun b => decide (b.id = bomb.id)) = 1) :
    ∀ (colors : List BubbleColor) (acc : List TargetCandidate),
      ((colors.foldl (fun a color =>
          (scanBubbles bs activeL anchor width color activeL [] a).1) acc).countP
          (fun c => decide (c.id = bomb.id)) =
        acc.countP (fun c => decide (c.id = bomb.id)) +
          colors.length * (if isPathClear bs anchor bomb = true then 1 else 0)) ∧
      (∀ c ∈ colors.foldl (fun a color =>
          (scanBubbles bs activeL anchor width color activeL [] a).1) acc,
        c.id = bomb.id → c ∈ acc ∨ c = bombCandidate bomb) := by
  intro colors
  induction colors with
  | nil =>
    intro acc
    constructor
    · simp
    · intro c hc hid
      exact Or.inl (by simpa using hc)
  | cons col cols ih =>
    intro acc
    simp only [List.foldl_cons]
    obtain ⟨sc, sm⟩ := scanBubbles_bomb_count bs activeL anchor width col bomb
      honly hiso hpu activeL [] acc (fun b hb => hb) (by omega)
    obtain ⟨fc, fm⟩ := ih ((scanBubbles bs activeL anchor width col activeL [] acc).1)
    constructor
    · rw [fc, sc, List.length_cons]
      by_cases hcl : isPathClear bs anchor bomb = true
      · rw [if_pos ⟨List.not_mem_nil _, hcl⟩, hone, if_pos hcl]
        omega
      · rw [if_neg (fun h => hcl h.2), if_neg hcl]
        omega
    · intro c hc hid
      rcases fm c hc hid with h | h
      · rcases sm c h hid with h2 | h2
        · exact Or.inl h2
        · exact Or.inr h2
      · exact Or.inr h

set_option maxRecDepth 40000 in
/-- Counterexample to C5 as stated: with two distinct active colors on the
board, a single reachable isolated bomb is emitted once per color — the
candidate list contains it twice, not exactly once. -/
theorem C5_bomb_once_cex :
    ex5bomb.active = true ∧ ex5bomb.powerUp = some PowerUp.bomb ∧
    isPathClear ex5bs (0, 100) ex5bomb = true ∧
    (getAllReachableClusters ex5bs (0, 100) 1000).countP
      (fun c => decide (c.id = ex5bomb.id)) = 2 := by
  refine ⟨rfl, rfl, ?_, ?_⟩
  · with_unfolding_all decide
  · with_unfolding_all decide

/-- C5 as amended: an isolated active bomb that passes the line-of-sight check
is emitted as a bomb candidate once per distinct color among the active
bubbles (so exactly once only when one distinct color is present); every such
candidate is the fixed `bombCandidate` record (color 'red', size 10, 500
points per bubble, the bomb's cell), and an unreachable bomb yields no
candidate at all. -/
theorem C5_amended_bomb_per_color (bs : List Bubble) (anchor : ℚ × ℚ)
    (width : ℚ) (bomb : Bubble) (hnd : (bs.map Bubble.id).Nodup)
    (hb : bomb ∈ bs) (hact : bomb.active = true)
    (hpu : bomb.powerUp = some PowerUp.bomb)
    (hiso : ∀ x ∈ bs, x.id ≠ bomb.id → isNeighbor x bomb = false) :
    ((getAllReachableClusters bs anchor width).countP
        (fun c => decide (c.id = bomb.id)) =
      (if isPathClear bs anchor bomb = true
        then ((bs.filter fun b => b.active).map fun b => b.color).eraseDups.length
        else 0)) ∧
    (∀ c ∈ getAllReachableClusters bs anchor width, c.id = bomb.id →
      c = bombCandidate bomb) := by
  have hasub : ∀ n ∈ bs.filter (fun b => b.active), n ∈ bs :=
    fun n hn => List.mem_of_mem_filter hn
  have honly : ∀ n ∈ bs.filter (fun b => b.active), n.id = bomb.id → n = bomb :=
    fun n hn hid => List.inj_on_of_nodup_map hnd (hasub n hn) hb hid
  have hiso' : ∀ x ∈ bs.filter (fun b => b.active), x.id ≠ bomb.id →
      isNeighbor x bomb = false := fun x hx => hiso x (hasub x hx)
  have hmem : bomb ∈ bs.filter (fun b => b.active) :=
    List.mem_filter.mpr ⟨hb, by simp [hact]⟩
  have hnd' : ((bs.filter fun b => b.active).map Bubble.id).Nodup :=
    ((List.filter_sublist bs).map Bubble.id).nodup hnd
  have hone : (bs.filter fun b => b.active).countP
      (fun b => decide (b.id = bomb.id)) = 1 := by
    have hle := countP_id_le_one _ hnd' bomb.id
    have hpos : 0 < (bs.filter fun b => b.active).countP
        (fun b => decide (b.id = bomb.id)) :=
      List.countP_pos_iff.mpr ⟨bomb, hmem, by simp⟩
    omega
  unfold getAllReachableClusters
  obtain ⟨fc, fm⟩ := foldColors_bomb_count bs (bs.filter fun b => b.active)
    anchor width bomb honly hiso' hpu hone
    (((bs.filter fun b => b.active).map fun b => b.color).eraseDups) []
  constructor
  · rw [fc]
    by_cases hcl : isPathClear bs anchor bomb = true
    · rw [if_pos hcl, if_pos hcl]
      simp
    · rw [if_neg hcl, if_neg hcl]
      simp
  · intro c hc hid
    rcases fm c hc hid with h | h
    · simp at h
    · exact h

/-- Witness for the amended C5: on the two-color board the reachable bomb is
emitted exactly `eraseDups.length = 2` times. -/
theorem C5_amended_bomb_per_color_witness :
    (getAllReachableClusters ex5bs (0, 100) 1000).countP
        (fun c => decide (c.id = ex5bomb.id)) =
      ((ex5bs.filter fun b => b.active).map fun b => b.color).eraseDups.length ∧
    ((ex5bs.filter fun b => b.active).map fun b => b.color).eraseDups.length = 2 := by
  have h := C5_amended_bomb_per_color ex5bs (0, 100) 1000 ex5bomb
    (by with_unfolding_all decide) (by with_unfolding_all decide) rfl rfl
    (by with_unfolding_all decide)
  constructor
  · rw [h.1]
    rw [if_pos (by with_unfolding_all decide)]
  · with_unfolding_all decide
